import Mathlib

/-!
Shallow embedding of the game engine in `server/dist/server/src/game/Game.js`
(the feature-complete build of the `Game` class: options, objectives, history,
masking).  JavaScript `Record` fields are modelled as `String → Option _`
maps, arrays as `List`, `Math.random`-driven shuffles are parameterised by a
choice function `rand : Nat → Nat` (the JS draw `Math.floor(random()*(i+1))`
is modelled as `rand i % (i+1)`, which ranges over exactly the same values).
Methods that can `throw` return the error together with the state at the
moment of the throw.
-/

set_option maxHeartbeats 1000000
set_option maxRecDepth 8000

inductive CardColor
  | DG | G | R | Y | B | W
deriving DecidableEq, Repr

inductive CardType
  | N | X2 | S | K | T
deriving DecidableEq, Repr

open CardColor CardType

def COLORS : List CardColor := [.DG, .G, .R, .Y, .B, .W]

def TYPES : List CardType := [.N, .X2, .S, .K, .T]

def colorCode : CardColor → String
  | .DG => "DG" | .G => "G" | .R => "R" | .Y => "Y" | .B => "B" | .W => "W"

def typeCode : CardType → String
  | .N => "N" | .X2 => "X2" | .S => "S" | .K => "K" | .T => "T"

def COLOR_FULL_NAME : CardColor → String
  | .DG => "Dark Green" | .G => "Green" | .R => "Red"
  | .Y => "Yellow" | .B => "Blue" | .W => "White"

def TYPE_FULL_NAME : CardType → String
  | .N => "Normal" | .X2 => "×2" | .S => "Shield" | .K => "Killer" | .T => "Spy"

def DISTRIBUTION : CardType → Nat
  | .N => 4 | .X2 => 2 | .S => 2 | .K => 2 | .T => 2

def OBJECTIVE_POINTS_EACH : Int := 3

structure Card where
  id : String
  color : CardColor
  type : CardType
  ownerId : String
  image : String
  isHidden : Bool
deriving DecidableEq, Repr

inductive PlayZone
  | banquet_top | banquet_bottom | self | opponent
deriving DecidableEq, Repr

inductive HiddenSign
  | top | bottom
deriving DecidableEq, Repr

inductive KillArea
  | self_domain | opponent_domain | banquet
deriving DecidableEq, Repr

structure PlayerState where
  id : String
  name : Option String
  hand : List Card
  domain : List Card
deriving DecidableEq, Repr

structure Moves where
  banquet : Option String
  self : Option String
  opponent : Option String
deriving DecidableEq, Repr

def Moves.empty : Moves := ⟨none, none, none⟩

structure HiddenEntry where
  card : Card
  sign : HiddenSign
deriving DecidableEq, Repr

structure PendingKill where
  affectedPlayerId : String
  area : KillArea
  targetPlayerId : Option String
  candidateCardIds : List String
  hiddenTopCount : Option Nat
  hiddenBottomCount : Option Nat
deriving DecidableEq, Repr

structure Objective where
  id : String
  kind : String
  title : String
  description : String
  color : Option CardColor
deriving DecidableEq, Repr

structure ObjectiveAssignment where
  graceful : Objective
  disgraceful : Objective
deriving DecidableEq, Repr

structure ObjectiveResult where
  gracefulMet : Bool
  disgracefulMet : Bool
deriving DecidableEq, Repr

structure HistoryCard where
  type : Option CardType
  color : Option CardColor
  hidden : Option Bool
deriving DecidableEq, Repr

structure HistoryItem where
  id : String
  action : String
  actorId : Option String
  actorName : Option String
  destination : Option String
  targetName : Option String
  card : Option HistoryCard
  message : String
deriving DecidableEq, Repr

/-- Six color-keyed slots, the shape of the JS object literals
`{ DG: [], G: [], R: [], Y: [], B: [], W: [] }` and of the various
per-color summary objects. -/
structure ByColor (α : Type) where
  DG : α
  G : α
  R : α
  Y : α
  B : α
  W : α
deriving DecidableEq, Repr

def ByColor.get (b : ByColor α) : CardColor → α
  | .DG => b.DG | .G => b.G | .R => b.R | .Y => b.Y | .B => b.B | .W => b.W

def ByColor.setC (b : ByColor α) (c : CardColor) (v : α) : ByColor α :=
  match c with
  | .DG => { b with DG := v }
  | .G => { b with G := v }
  | .R => { b with R := v }
  | .Y => { b with Y := v }
  | .B => { b with B := v }
  | .W => { b with W := v }

def ByColor.modify (b : ByColor α) (c : CardColor) (f : α → α) : ByColor α :=
  b.setC c (f (b.get c))

def ByColor.const (v : α) : ByColor α := ⟨v, v, v, v, v, v⟩

def ByColor.ofFun (f : CardColor → α) : ByColor α :=
  ⟨f .DG, f .G, f .R, f .Y, f .B, f .W⟩

def emptyPiles : ByColor (List Card) := ByColor.const []

structure DeckOptions where
  enabledColors : Option (CardColor → Option Bool)
  perColorTypeCounts : Option (CardType → Option Int)

structure GameOptions where
  maxPlayers : Option Int
  deckMultiplier : Option Int
  deckOptions : Option DeckOptions

structure Game where
  deck : List Card
  players : String → Option PlayerState
  objectives : String → Option ObjectiveAssignment
  banquetTop : ByColor (List Card)
  banquetBottom : ByColor (List Card)
  hiddenBanquet : List HiddenEntry
  currentTurn : String
  playerIds : List String
  started : Bool
  revealHidden : Bool
  historySeq : Nat
  history : List HistoryItem
  moves : String → Option Moves
  pendingKill : Option PendingKill
  objectiveResults : Option (String → Option ObjectiveResult)
  maxPlayers : Nat
  deckMultiplier : Nat
  deckOptions : Option DeckOptions

/-- JS `Array.prototype.indexOf`: index of the first occurrence, `-1` if absent. -/
def jsIndexOf (l : List String) (x : String) : Int :=
  match l.findIdx? (· = x) with
  | some i => (i : Int)
  | none => -1

/-- One swap of the Fisher-Yates loop body
`[arr[i], arr[j]] = [arr[j], arr[i]]`. -/
def listSwap (l : List α) (i j : Nat) : List α :=
  match l.get? i, l.get? j with
  | some a, some b => (l.set i b).set j a
  | _, _ => l

/-- The loop `for (i = n-1; i > 0; i--) { j = floor(random()*(i+1)); swap i j }`,
counting `i` down from the given start value. -/
def fisherYatesAux (rand : Nat → Nat) : List α → Nat → List α
  | l, 0 => l
  | l, i + 1 => fisherYatesAux rand (listSwap l (i + 1) (rand (i + 1) % (i + 2))) i

/-- `shuffleDeck` / the `shuffle` helper of `assignObjectives`. -/
def fisherYates (rand : Nat → Nat) (l : List α) : List α :=
  fisherYatesAux rand l (l.length - 1)

/-- `clampCount` inside `initializeDeck`: `max(0, min(50, floor(n)))`. -/
def clampCount (n : Int) : Nat := (min 50 (max 0 n)).toNat

/-- The unshuffled deck built by the nested loops of `initializeDeck`. -/
def buildDeck (opts : Option DeckOptions) (mult : Nat) : List Card :=
  let colors := match opts.bind (·.enabledColors) with
    | some en => COLORS.filter (fun c => en c ≠ some false)
    | none => COLORS
  colors.flatMap fun color =>
    TYPES.flatMap fun ty =>
      let count := match (opts.bind (·.perColorTypeCounts)).bind (fun f => f ty) with
        | some n => clampCount n
        | none => DISTRIBUTION ty * mult
      (List.range count).map fun i =>
        { id := colorCode color ++ "-" ++ typeCode ty ++ "-" ++ toString i
          color := color
          type := ty
          ownerId := ""
          image := colorCode color ++ typeCode ty ++ ".png"
          isHidden := false }

namespace Game

/-- Overwrite one key of the `players` record. -/
def setPlayer (g : Game) (pid : String) (p : PlayerState) : Game :=
  { g with players := fun q => if q = pid then some p else g.players q }

/-- Map one key of the `players` record (no-op on an absent key). -/
def updPlayer (g : Game) (pid : String) (f : PlayerState → PlayerState) : Game :=
  { g with players := fun q => if q = pid then (g.players q).map f else g.players q }

/-- Overwrite one key of the `moves` record. -/
def setMoves (g : Game) (pid : String) (m : Moves) : Game :=
  { g with moves := fun q => if q = pid then some m else g.moves q }

/-- `initializeDeck`: rebuild and shuffle the draw pile. -/
def initializeDeck (g : Game) (rand : Nat → Nat) : Game :=
  { g with deck := fisherYates rand (buildDeck g.deckOptions g.deckMultiplier) }

/-- The `Game` constructor: clamp `maxPlayers` to 2..4 and `deckMultiplier`
to 1..5, store the deck options and build the initial deck. -/
def new (options : Option GameOptions) (rand : Nat → Nat) : Game :=
  let mp : Int := (options.bind (·.maxPlayers)).getD 2
  let mult : Int := (options.bind (·.deckMultiplier)).getD 1
  let g : Game :=
    { deck := []
      players := fun _ => none
      objectives := fun _ => none
      banquetTop := emptyPiles
      banquetBottom := emptyPiles
      hiddenBanquet := []
      currentTurn := ""
      playerIds := []
      started := false
      revealHidden := false
      historySeq := 0
      history := []
      moves := fun _ => none
      pendingKill := none
      objectiveResults := none
      maxPlayers := (max 2 (min 4 mp)).toNat
      deckMultiplier := (max 1 (min 5 mult)).toNat
      deckOptions := options.bind (·.deckOptions) }
  g.initializeDeck rand

/-- `leftNeighborId`: next participant in turn order, wrapping around. -/
def leftNeighborId (g : Game) (playerId : String) : Option String :=
  match g.playerIds.findIdx? (· = playerId) with
  | none => none
  | some idx =>
      if g.playerIds.length < 2 then none
      else g.playerIds.get? ((idx + 1) % g.playerIds.length)

/-- `displayName`: trimmed stored name, else `Player ⟨seat⟩`. -/
def displayName (g : Game) (playerId : String) : String :=
  let n := (((g.players playerId).bind (·.name)).getD "").trim
  if n ≠ "" then n
  else
    match g.playerIds.findIdx? (· = playerId) with
    | some idx => "Player " ++ toString (idx + 1)
    | none => "Player"

/-- `pushHistory`: bump the sequence number, append, keep the last 80 entries. -/
def pushHistory (g : Game) (item : HistoryItem) : Game :=
  let seq := g.historySeq + 1
  let h := g.history ++ [{ item with id := toString seq }]
  let h := if h.length > 80 then h.drop (h.length - 80) else h
  { g with historySeq := seq, history := h }

def apos : String := String.singleton (Char.ofNat 39)

/-- `zoneLabel`. -/
def zoneLabel (g : Game) (playedBy : String) (targetZone : PlayZone)
    (targetPlayerId : Option String) : String :=
  match targetZone with
  | .self => "their domain"
  | .opponent =>
      let opponentId := match targetPlayerId with
        | some t => some t
        | none => g.leftNeighborId playedBy
      let oppName := match opponentId with
        | some o => g.displayName o
        | none => "opponent"
      oppName ++ apos ++ "s domain"
  | .banquet_top => "Grace (+1) on the Banquet"
  | .banquet_bottom => "Disgrace (−1) on the Banquet"

/-- `cardNameForHistory`: a still-hidden Spy is described only generically. -/
def cardNameForHistory (g : Game) (card : Card) : String :=
  if card.type = .T ∧ g.revealHidden = false then "a Spy card"
  else "a " ++ COLOR_FULL_NAME card.color ++ " " ++ TYPE_FULL_NAME card.type ++ " card"

/-- `getPlayerCount`. -/
def getPlayerCount (g : Game) : Nat := g.playerIds.length

/-- `removePlayer`: drop the participant and force the session back to a
clean joinable state, clearing remaining players' zones and move records. -/
def removePlayer (g : Game) (id : String) : Game :=
  if id ∈ g.playerIds then
    let newIds := g.playerIds.erase id
    let players1 : String → Option PlayerState :=
      fun q => if q = id then none else g.players q
    let moves1 : String → Option Moves :=
      fun q => if q = id then none else g.moves q
    let players2 : String → Option PlayerState :=
      fun q => if q ∈ newIds then (players1 q).map (fun p => { p with hand := [], domain := [] })
               else players1 q
    let moves2 : String → Option Moves :=
      fun q => if q ∈ newIds then some Moves.empty else moves1 q
    { g with
      playerIds := newIds
      players := players2
      moves := moves2
      started := false
      currentTurn := ""
      deck := []
      revealHidden := false
      objectiveResults := none
      historySeq := 0
      history := []
      banquetTop := emptyPiles
      banquetBottom := emptyPiles }
  else g

/-- `addPlayer`: idempotent for a present id, refused once started or full. -/
def addPlayer (g : Game) (id : String) (name : Option String) : Bool × Game :=
  if (g.players id).isSome then (true, g)
  else if g.started then (false, g)
  else if g.playerIds.length ≥ g.maxPlayers then (false, g)
  else
    (true,
      { g with
        playerIds := g.playerIds ++ [id]
        players := fun q => if q = id then some ⟨id, name, [], []⟩ else g.players q
        moves := fun q => if q = id then some Moves.empty else g.moves q })

/-- `drawCards`: pop `count` cards off the end of the draw pile into the
player's hand, stamping ownership.  A missing player (unreachable from the
public API) leaves the state unchanged. -/
def drawCards (g : Game) (playerId : String) : Nat → Game
  | 0 => g
  | n + 1 =>
      match (g.players playerId : Option PlayerState) with
      | none => g
      | some p =>
          match g.deck.getLast? with
          | none => drawCards g playerId n
          | some card =>
              let card := { card with ownerId := playerId }
              let g' := { g with
                deck := g.deck.dropLast
                players := fun q =>
                  if q = playerId then some { p with hand := p.hand ++ [card] }
                  else g.players q }
              drawCards g' playerId n

/-- The `makeGraceful` list of `assignObjectives`. -/
def makeGraceful : List Objective :=
  (COLORS.map fun c =>
    { id := "graceful_fewer_than_neighbor_" ++ colorCode c
      kind := "graceful"
      title := "Fewer than Neighbor (" ++ COLOR_FULL_NAME c ++ ")"
      description := "Have fewer " ++ COLOR_FULL_NAME c ++
        " cards in your collection than the player to your left."
      color := some c }) ++
  [ { id := "graceful_killer_2", kind := "graceful", title := "The Killer Objective",
      description := "Have at least 2 Killer cards in your collection.", color := none },
    { id := "graceful_espion_3", kind := "graceful", title := "The Espion Objective",
      description := "Have at least 3 Espion cards in your collection.", color := none },
    { id := "graceful_guard_4", kind := "graceful", title := "The Guard Objective",
      description := "Have at least 4 Shield (Guard) cards in your collection.", color := none },
    { id := "graceful_noble_3", kind := "graceful", title := "The Noble Objective",
      description := "Have at least 3 Noble cards in your collection.", color := none } ]

/-- The `makeDisgraceful` list of `assignObjectives`. -/
def makeDisgraceful : List Objective :=
  (COLORS.map fun c =>
    { id := "disgrace_family_negative_" ++ colorCode c
      kind := "disgraceful"
      title := "Family in Disgrace (" ++ COLOR_FULL_NAME c ++ ")"
      description := COLOR_FULL_NAME c ++ " must have a negative final value on the Banquet."
      color := some c }) ++
  [ { id := "disgrace_deep_hatred", kind := "disgraceful", title := "Deep Hatred",
      description := "At least one family has 5 or more cards in the negative section of the Banquet.",
      color := none },
    { id := "disgrace_universal_despisal", kind := "disgraceful", title := "Universal Despisal",
      description := "Every family has at least one card in the negative section of the Banquet.",
      color := none },
    { id := "disgrace_dark_age", kind := "disgraceful", title := "Dark Age",
      description := "At most 3 families are enlightened (positive on the Banquet).", color := none },
    { id := "disgrace_double_trouble", kind := "disgraceful", title := "Double Trouble",
      description := "At least 2 different families are in disgrace (negative on the Banquet).",
      color := none } ]

/-- `assignObjectives`: shuffle both decks of objectives and deal one pair per
seat, cycling through the shuffled lists by seat index. -/
def assignObjectives (g : Game) (randG randD : Nat → Nat) : Game :=
  let graceful := fisherYates randG makeGraceful
  let disgraceful := fisherYates randD makeDisgraceful
  let objectives := g.playerIds.enum.foldl
    (fun acc (p : Nat × String) =>
      match graceful.get? (p.1 % graceful.length), disgraceful.get? (p.1 % disgraceful.length) with
      | some og, some od => fun q => if q = p.2 then some ⟨og, od⟩ else acc q
      | _, _ => acc)
    (fun _ => none)
  { g with objectives := objectives }

/-- `startGame`: no-op unless two players are present and the game is not
started; rebuilds the deck, clears the table, assigns objectives, deals three
cards to each player and hands the turn to the first seat. -/
def startGame (g : Game) (randDeck randG randD : Nat → Nat) : Game :=
  if g.playerIds.length < 2 then g
  else if g.started then g
  else
    let g := g.initializeDeck randDeck
    let g := { g with
      banquetTop := emptyPiles
      banquetBottom := emptyPiles
      hiddenBanquet := []
      revealHidden := false
      pendingKill := none
      objectiveResults := none
      historySeq := 0
      history := [] }
    let g := g.assignObjectives randG randD
    let g := g.playerIds.foldl (fun acc id => acc.drawCards id 3) g
    let g := { g with currentTurn := (g.playerIds.get? 0).getD "", started := true }
    let item : HistoryItem :=
      { id := "", action := "start", actorId := none, actorName := none,
        destination := none, targetName := none, card := none, message := "Game started." }
    g.pushHistory item

/-- Card weight used throughout scoring: 2 for a double-value card, else 1. -/
def cardWeight (c : Card) : Int := if c.type = .X2 then 2 else 1

/-- `evaluateObjectiveAtEnd`: decide one objective against the final state. -/
def evaluateObjectiveAtEnd (g : Game) (playerId : String) (obj : Objective) : Bool :=
  let domain := ((g.players playerId).map (·.domain)).getD []
  let countType := fun (t : CardType) => (domain.filter (·.type = t)).length
  let countNoble := (domain.filter (fun c => c.type = .N ∨ c.type = .X2)).length
  let banquetValueByColor := fun (c : CardColor) =>
    (((g.banquetTop.get c).map cardWeight).sum : Int) -
      ((g.banquetBottom.get c).map cardWeight).sum
  let bottomCountByColor := fun (c : CardColor) => (g.banquetBottom.get c).length
  if obj.id = "graceful_killer_2" then decide (countType .K ≥ 2)
  else if obj.id = "graceful_espion_3" then decide (countType .T ≥ 3)
  else if obj.id = "graceful_guard_4" then decide (countType .S ≥ 4)
  else if obj.id = "graceful_noble_3" then decide (countNoble ≥ 3)
  else if obj.id = "disgrace_deep_hatred" then
    COLORS.any fun c => decide (bottomCountByColor c ≥ 5)
  else if obj.id = "disgrace_universal_despisal" then
    COLORS.all fun c => decide (bottomCountByColor c ≥ 1)
  else if obj.id = "disgrace_dark_age" then
    decide ((COLORS.filter fun c => banquetValueByColor c > 0).length ≤ 3)
  else if obj.id = "disgrace_double_trouble" then
    decide ((COLORS.filter fun c => banquetValueByColor c < 0).length ≥ 2)
  else if obj.id.startsWith "graceful_fewer_than_neighbor_" then
    match obj.color with
    | none => false
    | some color =>
      match g.playerIds.findIdx? (· = playerId) with
      | none => false
      | some idx =>
        if g.playerIds.length < 2 then false
        else
          let leftNeighbor := (g.playerIds.get? ((idx + 1) % g.playerIds.length)).getD ""
          let myCount := ((((g.players playerId).map (·.domain)).getD []).filter
            (·.color = color)).length
          let neighborCount := ((((g.players leftNeighbor).map (·.domain)).getD []).filter
            (·.color = color)).length
          decide (myCount < neighborCount)
  else if obj.id.startsWith "disgrace_family_negative_" then
    match obj.color with
    | none => false
    | some color => decide (banquetValueByColor color < 0)
  else false

/-- Restore a spy card's face, as the reveal loops of `checkGameOver` do. -/
def restoreSpy (c : Card) : Card :=
  if c.type = .T then { c with isHidden := false, image := colorCode c.color ++ typeCode c.type ++ ".png" }
  else c

/-- Unhide one hidden-banquet card, as the hidden-banquet reveal loop does. -/
def unhideCard (c : Card) : Card :=
  { c with isHidden := false, image := colorCode c.color ++ typeCode c.type ++ ".png" }

/-- The hidden-banquet reveal loop of `checkGameOver`: move every entry into
its true color's pile according to its recorded sign, in list order. -/
def revealMoveFold (l : List HiddenEntry) (acc : Game) : Game :=
  l.foldl
    (fun (acc : Game) (e : HiddenEntry) =>
      let c := unhideCard e.card
      match e.sign with
      | .top => { acc with banquetTop := acc.banquetTop.modify c.color (· ++ [c]) }
      | .bottom => { acc with banquetBottom := acc.banquetBottom.modify c.color (· ++ [c]) })
    acc

/-- The objective-evaluation loop of `checkGameOver`. -/
def objectiveResultsFold (g4 : Game) : String → Option ObjectiveResult :=
  g4.playerIds.foldl
    (fun (acc : String → Option ObjectiveResult) (pid : String) =>
      match g4.objectives pid with
      | none => acc
      | some obj => fun q =>
          if q = pid then
            some ⟨g4.evaluateObjectiveAtEnd pid obj.graceful,
                  g4.evaluateObjectiveAtEnd pid obj.disgraceful⟩
          else acc q)
    (fun _ => none)

/-- `checkGameOver`: when the game is started, the draw pile is exhausted and
every hand is empty, flip the reveal flag, clear any pending kill, restore
the true faces of all spy cards, move the hidden-banquet entries into their
real piles and evaluate every player's objectives. -/
def checkGameOver (g : Game) : Game :=
  if g.started = false then g
  else if g.deck.length > 0 then g
  else if g.playerIds.any (fun pid => match g.players pid with
    | some p => p.hand.length > 0
    | none => false) then g
  else
    let g1 := { g with revealHidden := true, pendingKill := none }
    let g2 := { g1 with
      players := fun q =>
        if q ∈ g1.playerIds then
          (g1.players q).map (fun (p : PlayerState) => { p with domain := p.domain.map restoreSpy })
        else g1.players q
      banquetTop := ByColor.ofFun (fun c => (g1.banquetTop.get c).map restoreSpy)
      banquetBottom := ByColor.ofFun (fun c => (g1.banquetBottom.get c).map restoreSpy) }
    let g3 := revealMoveFold g2.hiddenBanquet g2
    let g4 := { g3 with hiddenBanquet := [] }
    { g4 with objectiveResults := some (objectiveResultsFold g4) }

/-- `endTurn`: clear the ending player's move record, refill their hand with
three cards, pass the turn to the next seat and run game-over detection. -/
def endTurn (g : Game) : Game :=
  let g1 := { g with moves := fun q => if q = g.currentTurn then some Moves.empty else g.moves q }
  let g2 := g1.drawCards g1.currentTurn 3
  let len := g2.playerIds.length
  let next :=
    if len = 0 then ""
    else (g2.playerIds.get? (((jsIndexOf g2.playerIds g2.currentTurn + 1) % (len : Int)).toNat)).getD ""
  checkGameOver { g2 with currentTurn := next }

/-- `queueKill`: record the pending decision with its candidate targets,
excluding shields, and — for a banquet kill — the hidden pile counts. -/
def queueKill (g : Game) (playedBy : String) (targetZone : PlayZone)
    (opponentTargetPlayerId : Option String) : Game :=
  let affectedPlayerId := playedBy
  let area : KillArea := match targetZone with
    | .opponent => .opponent_domain
    | .self => .self_domain
    | _ => .banquet
  let pk : PendingKill :=
    if area = .banquet then
      { affectedPlayerId := affectedPlayerId
        area := area
        targetPlayerId := none
        candidateCardIds := COLORS.flatMap fun color =>
          (((g.banquetTop.get color).filter (fun c => c.type ≠ .S)).map (·.id)) ++
          (((g.banquetBottom.get color).filter (fun c => c.type ≠ .S)).map (·.id))
        hiddenTopCount := some (g.hiddenBanquet.filter (·.sign = .top)).length
        hiddenBottomCount := some (g.hiddenBanquet.filter (·.sign = .bottom)).length }
    else
      let targetPlayerId : Option String :=
        if area = .self_domain then some affectedPlayerId
        else match opponentTargetPlayerId with
          | some t => some t
          | none => match g.leftNeighborId affectedPlayerId with
            | some t => some t
            | none => g.playerIds.find? (· ≠ affectedPlayerId)
      let domain := ((targetPlayerId.bind g.players).map (·.domain)).getD []
      { affectedPlayerId := affectedPlayerId
        area := area
        targetPlayerId := if area = .opponent_domain then opponentTargetPlayerId else none
        candidateCardIds := (domain.filter (fun c => c.type ≠ .S)).map (·.id)
        hiddenTopCount := none
        hiddenBottomCount := none }
  { g with pendingKill := some pk }

/-- Resolve the opponent of an `opponent`-zone play: the explicit target if it
names a present, distinct player, else the left neighbor. -/
def resolveOpponent (g : Game) (playerId : String) (targetPlayerId : Option String) :
    Option String :=
  match targetPlayerId with
  | some t => if t ≠ "" ∧ (g.players t).isSome ∧ t ≠ playerId then some t
              else g.leftNeighborId playerId
  | none => g.leftNeighborId playerId

/-- The zone-routing block of `playCard`: place the (possibly masked) card in
the requested zone and mark the move-category of the turn record. -/
def routePlay (gS : Game) (playerId : String) (player playerSpliced : PlayerState)
    (currentMoves : Moves) (card : Card) (targetZone : PlayZone)
    (targetPlayerId : Option String) : Except String Unit × Game :=
  match targetZone with
  | .banquet_top =>
      let gZ := if card.type = .T ∧ gS.revealHidden = false
        then { gS with hiddenBanquet := gS.hiddenBanquet ++ [⟨card, .top⟩] }
        else { gS with banquetTop := gS.banquetTop.modify card.color (· ++ [card]) }
      (.ok (), gZ.setMoves playerId { currentMoves with banquet := some card.id })
  | .banquet_bottom =>
      let gZ := if card.type = .T ∧ gS.revealHidden = false
        then { gS with hiddenBanquet := gS.hiddenBanquet ++ [⟨card, .bottom⟩] }
        else { gS with banquetBottom := gS.banquetBottom.modify card.color (· ++ [card]) }
      (.ok (), gZ.setMoves playerId { currentMoves with banquet := some card.id })
  | .self =>
      let gZ := gS.setPlayer playerId
        { playerSpliced with domain := player.domain ++ [card] }
      (.ok (), gZ.setMoves playerId { currentMoves with self := some card.id })
  | .opponent =>
      match gS.resolveOpponent playerId targetPlayerId with
      | none => (.error "No opponent available", gS)
      | some opponentId =>
          let gZ := gS.updPlayer opponentId
            (fun po => { po with domain := po.domain ++ [card] })
          (.ok (), gZ.setMoves playerId { currentMoves with opponent := some card.id })

/-- The resolved opponent recomputed for history/kill purposes inside
`playCard` (`undefined` for non-opponent zones). -/
def playOpponentId (gZ : Game) (playerId : String) (targetZone : PlayZone)
    (targetPlayerId : Option String) : Option String :=
  if targetZone = .opponent then gZ.resolveOpponent playerId targetPlayerId else none

/-- The history entry a successful `playCard` appends (spy plays stay
generic, killer banquet plays get their own wording). -/
def playHistoryItem (gZ : Game) (playerId : String) (card : Card) (targetZone : PlayZone)
    (targetPlayerId : Option String) : HistoryItem :=
  let actor := gZ.displayName playerId
  let whereStr := gZ.zoneLabel playerId targetZone targetPlayerId
  let destination := match targetZone with
    | .self => "my_domain"
    | .opponent => "opponent_domain"
    | .banquet_top => "banquet_grace"
    | .banquet_bottom => "banquet_disgrace"
  let targetName := (playOpponentId gZ playerId targetZone targetPlayerId).map
    (gZ.displayName ·)
  if card.type = .T ∧ gZ.revealHidden = false then
    { id := "", action := "play", actorId := some playerId,
      actorName := some actor, destination := some destination,
      targetName := targetName, card := some ⟨some .T, none, some true⟩,
      message := actor ++ " played a Spy card in " ++ whereStr ++ "." }
  else if card.type = .K ∧
      (targetZone = .banquet_top ∨ targetZone = .banquet_bottom) then
    { id := "", action := "play", actorId := some playerId,
      actorName := some actor, destination := some destination,
      targetName := targetName, card := some ⟨some .K, some card.color, none⟩,
      message := actor ++ " put a Killer in " ++ whereStr ++ "." }
  else
    let hiddenSpy := card.type = .T ∧ gZ.revealHidden = false
    let hc : HistoryCard := if hiddenSpy then ⟨some .T, none, some true⟩
      else ⟨some card.type, some card.color, none⟩
    { id := "", action := "play", actorId := some playerId,
      actorName := some actor, destination := some destination,
      targetName := targetName, card := some hc,
      message := actor ++ " put " ++ gZ.cardNameForHistory card ++
        " in " ++ whereStr ++ "." }

/-- The tail of a successful `playCard`: log history, queue a killer's pending
decision and advance the turn when all three move-categories are done and no
kill is pending. -/
def finishPlay (gZ : Game) (playerId : String) (card : Card) (targetZone : PlayZone)
    (targetPlayerId : Option String) : Except String Unit × Game :=
  let gH := gZ.pushHistory (playHistoryItem gZ playerId card targetZone targetPlayerId)
  let gK := if card.type = .K
    then gH.queueKill playerId targetZone
      (playOpponentId gZ playerId targetZone targetPlayerId)
    else gH
  let finalMoves := (gK.moves playerId).getD Moves.empty
  if finalMoves.banquet.isSome ∧ finalMoves.self.isSome ∧
      finalMoves.opponent.isSome then
    if gK.pendingKill.isSome then (.ok (), gK)
    else (.ok (), gK.endTurn)
  else (.ok (), gK)

/-- `playCard`: validate, remove the card from the hand, mask a spy, route it
to the requested zone, log history, queue a kill for a killer and advance the
turn when all three move-categories are done and no kill is pending.  The
returned state is the object's state at the moment the method returns or
throws. -/
def playCard (g : Game) (playerId cardId : String) (targetZone : PlayZone)
    (targetPlayerId : Option String) : Except String Unit × Game :=
  if g.started = false then (.error "Game has not started yet", g)
  else if playerId ≠ g.currentTurn then (.error "Not your turn", g)
  else
    match g.players playerId with
    | none => (.error "TypeError: no such player", g)
    | some player =>
      match player.hand.findIdx? (fun c => c.id = cardId) with
      | none => (.error "Card not in hand", g)
      | some cardIndex =>
        match g.moves playerId with
        | none => (.error "TypeError: no move record", g)
        | some currentMoves =>
          if (targetZone = .banquet_top ∨ targetZone = .banquet_bottom) ∧
              currentMoves.banquet.isSome then
            (.error "Already played to banquet", g)
          else if targetZone = .self ∧ currentMoves.self.isSome then
            (.error "Already played to self", g)
          else if targetZone = .opponent ∧ currentMoves.opponent.isSome then
            (.error "Already played to opponent", g)
          else
            let card0 := (player.hand.get? cardIndex).getD ⟨"", .DG, .N, "", "", false⟩
            let card := if card0.type = .T ∧ g.revealHidden = false
              then { card0 with isHidden := true } else card0
            let playerSpliced : PlayerState := { player with hand := player.hand.eraseIdx cardIndex }
            let gS := { g with players := fun q =>
              if q = playerId then some playerSpliced else g.players q }
            match routePlay gS playerId player playerSpliced currentMoves card
              targetZone targetPlayerId with
            | (.error e, gE) => (.error e, gE)
            | (.ok _, gZ) => finishPlay gZ playerId card targetZone targetPlayerId

/-- The kill-resolution payload `{cardId?, hiddenSign?}`. -/
structure KillData where
  cardId : Option String
  hiddenSign : Option HiddenSign
deriving DecidableEq, Repr

/-- Remove the first card with the given id from a list. -/
def removeFirstById (l : List Card) (cid : String) : Option (Card × List Card) :=
  match l.findIdx? (fun c => c.id = cid) with
  | none => none
  | some i =>
    match l.get? i with
    | some c => some (c, l.eraseIdx i)
    | none => none

/-- The visible-banquet scan of `resolveKill`: first matching card over the
colors in declaration order, top pile before bottom pile. -/
def removeFromBanquetAux (top bottom : ByColor (List Card)) (cid : String) :
    List CardColor → Option (Card × ByColor (List Card) × ByColor (List Card))
  | [] => none
  | color :: rest =>
    match removeFirstById (top.get color) cid with
    | some (c, l') => some (c, top.setC color l', bottom)
    | none =>
      match removeFirstById (bottom.get color) cid with
      | some (c, l') => some (c, top, bottom.setC color l')
      | none => removeFromBanquetAux top bottom cid rest

/-- The common tail of a card-removing `resolveKill`: log the kill, clear the
pending decision and advance the turn when the three plays are already done. -/
def killHistoryItem (g : Game) (actingPlayerId actor : String) (killed : Card) :
    HistoryItem :=
  if killed.type = .T ∧ g.revealHidden = false then
    { id := "", action := "kill", actorId := some actingPlayerId,
      actorName := some actor, destination := none, targetName := none,
      card := some ⟨some .T, none, some true⟩,
      message := actor ++ " killed a Spy card." }
  else
    { id := "", action := "kill", actorId := some actingPlayerId,
      actorName := some actor, destination := none, targetName := none,
      card := some ⟨some killed.type, some killed.color, none⟩,
      message := actor ++ " killed a " ++ COLOR_FULL_NAME killed.color ++ " " ++
        TYPE_FULL_NAME killed.type ++ " card." }

def finishKill (g : Game) (actingPlayerId : String) (actor : String) (killed : Card) :
    Except String Unit × Game :=
  let gH := g.pushHistory (killHistoryItem g actingPlayerId actor killed)
  let gC := { gH with pendingKill := none }
  let turnMoves := (gC.moves gC.currentTurn).getD Moves.empty
  if turnMoves.banquet.isSome ∧ turnMoves.self.isSome ∧ turnMoves.opponent.isSome then
    (.ok (), gC.endTurn)
  else (.ok (), gC)

/-- `resolveKill`: apply the affected player's kill decision. -/
def resolveKill (g : Game) (actingPlayerId : String) (data : KillData) :
    Except String Unit × Game :=
  match g.pendingKill with
  | none => (.error "No pending kill", g)
  | some pendingKill =>
    if actingPlayerId ≠ pendingKill.affectedPlayerId then (.error "Not your decision", g)
    else if data.cardId = none ∧ data.hiddenSign = none then
      (.error "No kill target provided", g)
    else
      let actor := g.displayName actingPlayerId
      match data.cardId with
      | some cid =>
        if cid ∉ pendingKill.candidateCardIds then (.error "Invalid kill target", g)
        else if pendingKill.area = .banquet then
          match removeFromBanquetAux g.banquetTop g.banquetBottom cid COLORS with
          | none => (.error "Target not found", g)
          | some (killed, top', bottom') =>
            finishKill { g with banquetTop := top', banquetBottom := bottom' }
              actingPlayerId actor killed
        else
          let targetPlayerId : Option String :=
            if pendingKill.area = .self_domain then some pendingKill.affectedPlayerId
            else match pendingKill.targetPlayerId with
              | some t => some t
              | none => match g.leftNeighborId pendingKill.affectedPlayerId with
                | some t => some t
                | none => g.playerIds.find? (· ≠ pendingKill.affectedPlayerId)
          let domain := ((targetPlayerId.bind g.players).map (·.domain)).getD []
          match domain.findIdx? (fun c => c.id = cid) with
          | none => (.error "Target not found", g)
          | some idx =>
            let killed := (domain.get? idx).getD ⟨"", .DG, .N, "", "", false⟩
            if killed.type = .S then (.error "Shields cannot be killed", g)
            else
              let g1 := match targetPlayerId with
                | some t => g.updPlayer t (fun p => { p with domain := p.domain.eraseIdx idx })
                | none => g
              finishKill g1 actingPlayerId actor killed
      | none =>
        if pendingKill.area = .banquet then
          match data.hiddenSign with
          | none => (.error "No kill target provided", g)
          | some hs =>
            match g.hiddenBanquet.findIdx? (·.sign = hs) with
            | none => (.error "No hidden card at that position", g)
            | some idx =>
              let g1 := { g with hiddenBanquet := g.hiddenBanquet.eraseIdx idx,
                                 pendingKill := none }
              let whereStr := match hs with
                | .top => "Grace (+1) on the Banquet"
                | .bottom => "Disgrace (−1) on the Banquet"
              let item : HistoryItem :=
                { id := "", action := "kill_hidden", actorId := some actingPlayerId,
                  actorName := some actor,
                  destination := some (match hs with
                    | .top => "banquet_grace"
                    | .bottom => "banquet_disgrace"),
                  targetName := none, card := some ⟨none, none, some true⟩,
                  message := actor ++ " destroyed a hidden card from " ++ whereStr ++ "." }
              let g2 := g1.pushHistory item
              let turnMoves := (g2.moves g2.currentTurn).getD Moves.empty
              if turnMoves.banquet.isSome ∧ turnMoves.self.isSome ∧
                  turnMoves.opponent.isSome then
                (.ok (), g2.endTurn)
              else (.ok (), g2)
        else (.error "Target not found", g)

/-- `cancelKill`: silently a no-op when nothing is pending; otherwise only the
affected player may cancel, and cancelling may complete the suspended turn. -/
def cancelKill (g : Game) (actingPlayerId : String) : Except String Unit × Game :=
  match g.pendingKill with
  | none => (.ok (), g)
  | some pendingKill =>
    if actingPlayerId ≠ pendingKill.affectedPlayerId then (.error "Not your decision", g)
    else
      let g1 := { g with pendingKill := none }
      let actor := g1.displayName actingPlayerId
      let item : HistoryItem :=
        { id := "", action := "kill_none", actorId := some actingPlayerId,
          actorName := some actor, destination := none, targetName := none,
          card := none, message := actor ++ " didn" ++ apos ++ "t kill anyone." }
      let g2 := g1.pushHistory item
      let turnMoves := (g2.moves g2.currentTurn).getD Moves.empty
      if turnMoves.banquet.isSome ∧ turnMoves.self.isSome ∧ turnMoves.opponent.isSome then
        (.ok (), g2.endTurn)
      else (.ok (), g2)

end Game

structure ColorSummary where
  topVisible : Nat
  bottomVisible : Nat
  valueVisible : Int
  valueRevealed : Int
deriving DecidableEq, Repr

structure BanquetSummary where
  byColor : ByColor ColorSummary
  hiddenTopCount : Nat
  hiddenBottomCount : Nat
deriving DecidableEq, Repr

structure BanquetDetailsEntry where
  top : List Card
  bottom : List Card
deriving DecidableEq, Repr

structure BanquetDetails where
  byColor : ByColor BanquetDetailsEntry
  hiddenTopCount : Nat
  hiddenBottomCount : Nat
deriving DecidableEq, Repr

structure ScoreEntry where
  total : Int
  byColor : ByColor Int
  deckCounts : ByColor Nat
  objectivePoints : Int
deriving DecidableEq, Repr

structure DomainSummaryEntry where
  byColorCounts : ByColor Nat
  spiesCount : Nat
deriving DecidableEq, Repr

structure RankEntry where
  playerId : String
  name : String
  total : Int
deriving DecidableEq, Repr

structure TurnPlays where
  banquet : Bool
  self : Bool
  opponent : Bool
deriving DecidableEq, Repr

structure SnapPlayer where
  id : String
  name : Option String
  hand : List Card
  domain : List Card
deriving DecidableEq, Repr

structure PendingActionView where
  type : String
  affectedPlayerId : String
  area : KillArea
  targetPlayerId : Option String
  candidateCardIds : List String
  hiddenTopCount : Option Nat
  hiddenBottomCount : Option Nat
deriving DecidableEq, Repr

structure MyObjectivesView where
  graceful : Objective
  disgraceful : Objective
  gracefulMet : Option Bool
  disgracefulMet : Option Bool
deriving DecidableEq, Repr

structure Snapshot where
  players : List (String × SnapPlayer)
  queens : List (String × List Card)
  turn : String
  started : Bool
  maxPlayers : Nat
  playerOrder : List String
  turnPlays : TurnPlays
  banquet : BanquetSummary
  banquetDetails : BanquetDetails
  domainSummary : List (String × DomainSummaryEntry)
  scores : List (String × ScoreEntry)
  revealHidden : Bool
  deckRemaining : Nat
  objectiveResultsPublic : Option (List (String × ObjectiveResult))
  pendingAction : Option PendingActionView
  history : List HistoryItem
  winner : Option String
  finalRanking : Option (List RankEntry)
  myObjectives : Option MyObjectivesView
deriving DecidableEq, Repr

namespace Game

/-- `computeBanquetSummary`: per-color visible counts, visible net value
(still-hidden cards excluded) and fully revealed net value. -/
def computeBanquetSummary (g : Game) : BanquetSummary :=
  { byColor := ByColor.ofFun fun color =>
      let top := g.banquetTop.get color
      let bottom := g.banquetBottom.get color
      let topVisibleCards := top.filter (fun c => c.isHidden = false)
      let bottomVisibleCards := bottom.filter (fun c => c.isHidden = false)
      { topVisible := topVisibleCards.length
        bottomVisible := bottomVisibleCards.length
        valueVisible := ((topVisibleCards.map cardWeight).sum : Int) -
          (bottomVisibleCards.map cardWeight).sum
        valueRevealed := ((top.map cardWeight).sum : Int) - (bottom.map cardWeight).sum }
    hiddenTopCount := (g.hiddenBanquet.filter (·.sign = .top)).length
    hiddenBottomCount := (g.hiddenBanquet.filter (·.sign = .bottom)).length }

/-- `computeBanquetDetails`: the visible cards of every pile. -/
def computeBanquetDetails (g : Game) : BanquetDetails :=
  { byColor := ByColor.ofFun fun color =>
      { top := (g.banquetTop.get color).filter (fun c => c.isHidden = false)
        bottom := (g.banquetBottom.get color).filter (fun c => c.isHidden = false) }
    hiddenTopCount := (g.hiddenBanquet.filter (·.sign = .top)).length
    hiddenBottomCount := (g.hiddenBanquet.filter (·.sign = .bottom)).length }

/-- `computeScores`: per player, per-color banquet value times holdings, plus
objective bonuses once revealed. -/
def computeScores (g : Game) (banquetSummary : BanquetSummary) : List (String × ScoreEntry) :=
  g.playerIds.map fun pid =>
    let domain := (((g.players pid).map (·.domain))).getD []
    let deckCounts : ByColor Nat := domain.foldl
      (fun (acc : ByColor Nat) (card : Card) =>
        if card.type = .T ∧ g.revealHidden = false then acc
        else acc.modify card.color (· + (if card.type = .X2 then 2 else 1)))
      (ByColor.const 0)
    let byColor : ByColor Int := ByColor.ofFun fun color =>
      let value := if g.revealHidden then (banquetSummary.byColor.get color).valueRevealed
        else (banquetSummary.byColor.get color).valueVisible
      value * (deckCounts.get color : Int)
    let total0 : Int := COLORS.foldl (fun t c => t + byColor.get c) 0
    let objectivePoints : Int :=
      if g.revealHidden then
        (match g.objectiveResults.bind (fun r => r pid) with
          | some res => (if res.gracefulMet then OBJECTIVE_POINTS_EACH else 0) +
              (if res.disgracefulMet then OBJECTIVE_POINTS_EACH else 0)
          | none => 0)
      else 0
    (pid, { total := total0 + objectivePoints, byColor := byColor,
            deckCounts := deckCounts, objectivePoints := objectivePoints })

/-- `computeDomainSummary`: per player, weighted color counts of the domain
with spies kept out of the color buckets. -/
def computeDomainSummary (g : Game) : List (String × DomainSummaryEntry) :=
  g.playerIds.map fun pid =>
    let domain := (((g.players pid).map (·.domain))).getD []
    let entry := domain.foldl
      (fun (acc : DomainSummaryEntry) (c : Card) =>
        if c.type = .T then { acc with spiesCount := acc.spiesCount + 1 }
        else { acc with byColorCounts :=
          acc.byColorCounts.modify c.color (· + (if c.type = .X2 then 2 else 1)) })
      { byColorCounts := ByColor.const 0, spiesCount := 0 }
    (pid, entry)

/-- The per-card masking of an opponent's hand in `getState`. -/
def maskHandCard (c : Card) : Card :=
  { c with image := "back.jpeg", type := .N, color := .W }

/-- The per-card masking of a still-hidden spy in a domain in `getState`. -/
def maskDomainCard (reveal : Bool) (c : Card) : Card :=
  if c.type = .T ∧ reveal = false then
    { c with image := "back.jpeg", isHidden := true, type := .N, color := .W }
  else c

/-- `getState(forPlayerId)`: the per-viewer snapshot. -/
def getState (g : Game) (forPlayerId : String) : Snapshot :=
  let turnMoves := if g.currentTurn ≠ "" then (g.moves g.currentTurn).getD Moves.empty
    else Moves.empty
  let banquet := g.computeBanquetSummary
  let banquetDetails := g.computeBanquetDetails
  let scores := g.computeScores banquet
  let domainSummary := g.computeDomainSummary
  let playerOrder := g.playerIds
  let finalRanking : Option (List RankEntry) :=
    if g.revealHidden then
      some ((playerOrder.map fun pid =>
        ({ playerId := pid, name := g.displayName pid,
           total := (((scores.find? (·.1 = pid)).map (·.2.total))).getD 0 } : RankEntry)).mergeSort
        (fun a b => b.total ≤ a.total))
    else none
  let winner := (finalRanking.bind (·.head?)).map (·.playerId)
  let players := g.playerIds.map fun pid =>
    let p := (g.players pid).getD ⟨pid, none, [], []⟩
    let hand := if pid = forPlayerId then p.hand else p.hand.map maskHandCard
    let domain := p.domain.map (maskDomainCard g.revealHidden)
    (pid, ({ id := pid, name := p.name, hand := hand, domain := domain } : SnapPlayer))
  let myObjectives : Option MyObjectivesView :=
    (g.objectives forPlayerId).map fun o =>
      { graceful := o.graceful
        disgraceful := o.disgraceful
        gracefulMet := if g.revealHidden then
            (g.objectiveResults.bind (fun r => r forPlayerId)).map (·.gracefulMet)
          else none
        disgracefulMet := if g.revealHidden then
            (g.objectiveResults.bind (fun r => r forPlayerId)).map (·.disgracefulMet)
          else none }
  { players := players
    queens := [("all", [])]
    turn := g.currentTurn
    started := g.started
    maxPlayers := g.maxPlayers
    playerOrder := playerOrder
    turnPlays := { banquet := turnMoves.banquet.isSome, self := turnMoves.self.isSome,
                   opponent := turnMoves.opponent.isSome }
    banquet := banquet
    banquetDetails := banquetDetails
    domainSummary := domainSummary
    scores := scores
    revealHidden := g.revealHidden
    deckRemaining := g.deck.length
    objectiveResultsPublic :=
      if g.revealHidden then
        g.objectiveResults.map fun r => g.playerIds.filterMap fun pid => (r pid).map ((pid, ·))
      else none
    pendingAction := g.pendingKill.map fun pk =>
      { type := "kill"
        affectedPlayerId := pk.affectedPlayerId
        area := pk.area
        targetPlayerId := pk.targetPlayerId
        candidateCardIds := pk.candidateCardIds
        hiddenTopCount := pk.hiddenTopCount
        hiddenBottomCount := pk.hiddenBottomCount }
    history := g.history
    winner := winner
    finalRanking := finalRanking
    myObjectives := myObjectives }

/-- Total number of cards in the session: draw pile, every participant's hand
and domain, every banquet pile and the hidden-banquet list. -/
def totalCards (g : Game) : Nat :=
  g.deck.length +
  (g.playerIds.map fun pid => (((g.players pid).map (fun p => p.hand.length + p.domain.length))).getD 0).sum +
  (COLORS.map fun c => (g.banquetTop.get c).length + (g.banquetBottom.get c).length).sum +
  g.hiddenBanquet.length

/-- Structural well-formedness maintained by the registry: seat list without
duplicates, the `players` record defined exactly on the seats, the `moves`
record defined only for seats, and a started game has a seated current player
among at least two participants. -/
def WF (g : Game) : Prop :=
  g.playerIds.Nodup ∧
  (∀ pid, (g.players pid).isSome ↔ pid ∈ g.playerIds) ∧
  (∀ pid, (g.moves pid).isSome → pid ∈ g.playerIds) ∧
  (g.started = true → g.currentTurn ∈ g.playerIds ∧ 2 ≤ g.playerIds.length)

/-- The seat the turn passes to when `endTurn` advances: next in turn order
after the current player, mirroring the pointer computation of `endTurn`. -/
def nextSeat (g : Game) : String :=
  if g.playerIds.length = 0 then ""
  else (g.playerIds.get?
    (((jsIndexOf g.playerIds g.currentTurn + 1) % (g.playerIds.length : Int)).toNat)).getD ""

end Game

open Game in
/-- Spec-side banquet value of a color (§4.6 of the spec): the revealed net
value when the reveal flag is set, else the visible net value with
still-hidden cards excluded; a card weighs 2 if double-value and 1 otherwise. -/
def specBanquetValue (g : Game) (color : CardColor) : Int :=
  if g.revealHidden then
    ((g.banquetTop.get color).map cardWeight).sum -
      ((g.banquetBottom.get color).map cardWeight).sum
  else
    (((g.banquetTop.get color).filter (fun c => c.isHidden = false)).map cardWeight).sum -
      (((g.banquetBottom.get color).filter (fun c => c.isHidden = false)).map cardWeight).sum

open Game in
/-- Spec-side holdings of a player in a color: the sum of the same weights
over the player's domain cards of that color, with spy-type cards excluded
while the reveal flag is unset. -/
def specHoldings (g : Game) (pid : String) (color : CardColor) : Int :=
  (((((g.players pid).map (·.domain)).getD []).filter
    (fun c => c.color = color ∧ ¬(c.type = .T ∧ g.revealHidden = false))).map cardWeight).sum

/-- Spec-side objective bonus: only after reveal, a fixed bonus for each of
the player's two private objectives that is met. -/
def specObjectiveBonus (g : Game) (pid : String) : Int :=
  if g.revealHidden then
    match g.objectiveResults.bind (fun r => r pid) with
    | some res => (if res.gracefulMet then OBJECTIVE_POINTS_EACH else 0) +
        (if res.disgracefulMet then OBJECTIVE_POINTS_EACH else 0)
    | none => 0
  else 0

/-- A family of card rewrites that may change only a hidden spy card's color
and image, keeping its identifier, type, hidden flag and owner. -/
def SpyMask (f : Card → Card) : Prop :=
  ∀ c, (f c).id = c.id ∧ (f c).type = c.type ∧ (f c).isHidden = c.isHidden ∧
    (f c).ownerId = c.ownerId

/-- Apply a rewrite to hidden spy cards only. -/
def recolorCard (f : Card → Card) (c : Card) : Card :=
  if c.type = .T ∧ c.isHidden = true then f c else c

/-- Rewrite the hidden spy cards of a session, wherever they live (domains,
banquet piles, the hidden-banquet list); hands and the draw pile hold no
hidden cards. -/
def recolorHiddenSpies (f : Card → Card) (g : Game) : Game :=
  { g with
    players := fun q => (g.players q).map
      (fun p => { p with domain := p.domain.map (recolorCard f) })
    banquetTop := ByColor.ofFun fun c => (g.banquetTop.get c).map (recolorCard f)
    banquetBottom := ByColor.ofFun fun c => (g.banquetBottom.get c).map (recolorCard f)
    hiddenBanquet := g.hiddenBanquet.map fun e => { e with card := recolorCard f e.card } }

section Infrastructure

@[simp] theorem ByColor.get_ofFun (f : CardColor → α) (c : CardColor) :
    (ByColor.ofFun f).get c = f c := by cases c <;> rfl

@[simp] theorem ByColor.get_const (v : α) (c : CardColor) :
    (ByColor.const v).get c = v := by cases c <;> rfl

theorem ByColor.get_setC (b : ByColor α) (c : CardColor) (v : α) (c' : CardColor) :
    (b.setC c v).get c' = if c' = c then v else b.get c' := by
  cases c <;> cases c' <;> simp [ByColor.setC, ByColor.get]

theorem ByColor.get_modify (b : ByColor α) (c : CardColor) (f : α → α) (c' : CardColor) :
    (b.modify c f).get c' = if c' = c then f (b.get c) else b.get c' := by
  simp [ByColor.modify, ByColor.get_setC]

theorem foldl_add_map_sum (f : α → Int) (l : List α) (a : Int) :
    l.foldl (fun t c => t + f c) a = a + (l.map f).sum := by
  induction l generalizing a with
  | nil => simp
  | cons x xs ih => simp [ih, add_assoc]

theorem findIdx?_spec {p : α → Bool} {l : List α} {i : Nat}
    (h : l.findIdx? p = some i) : ∃ c, l.get? i = some c ∧ p c = true := by
  induction l generalizing i with
  | nil => simp [List.findIdx?] at h
  | cons x xs ih =>
      rw [List.findIdx?_cons] at h
      by_cases hx : p x
      · simp [hx] at h
        subst h
        exact ⟨x, rfl, hx⟩
      · simp [hx] at h
        obtain ⟨j, hj, rfl⟩ := h
        obtain ⟨c, hc, hpc⟩ := ih hj
        exact ⟨c, by simpa using hc, hpc⟩

theorem findIdx?_lt_length {p : α → Bool} {l : List α} {i : Nat}
    (h : l.findIdx? p = some i) : i < l.length := by
  obtain ⟨c, hc, -⟩ := findIdx?_spec h
  obtain ⟨hlt, -⟩ := List.get?_eq_some.mp hc
  exact hlt

/-- Sum over a duplicate-free key list after overwriting one member key. -/
theorem map_sum_update (ids : List String) (hnd : ids.Nodup) (f f' : String → Nat)
    (pid : String) (hmem : pid ∈ ids) (hsame : ∀ q, q ≠ pid → f' q = f q) :
    (ids.map f').sum + f pid = (ids.map f).sum + f' pid := by
  induction ids with
  | nil => cases hmem
  | cons a tl ih =>
      rcases List.mem_cons.mp hmem with rfl | hmem'
      · have htl : tl.map f' = tl.map f := by
          apply List.map_congr_left
          intro q hq
          exact hsame q (fun h => (List.nodup_cons.mp hnd).1 (h ▸ hq))
        simp [htl]
        omega
      · have ha : f' a = f a := by
          apply hsame
          intro h
          exact (List.nodup_cons.mp hnd).1 (h ▸ hmem')
        have := ih (List.nodup_cons.mp hnd).2 hmem'
        simp [ha]
        omega

end Infrastructure

namespace Game

/-- `drawCards` changes only the draw pile and the `players` record. -/
theorem drawCards_shape (g : Game) (pid : String) :
    ∀ n, ∃ d p, g.drawCards pid n = { g with deck := d, players := p } := by
  intro n
  induction n generalizing g with
  | zero => exact ⟨g.deck, g.players, rfl⟩
  | succ n ih =>
      rw [drawCards]
      cases hp : g.players pid with
      | none => exact ⟨g.deck, g.players, rfl⟩
      | some p =>
          cases hd : g.deck.getLast? with
          | none =>
              obtain ⟨d', p', h⟩ := ih g
              exact ⟨d', p', h⟩
          | some card =>
              obtain ⟨d', p', h⟩ := ih _
              exact ⟨d', p', h⟩

/-- The hidden-banquet reveal fold changes only the two pile families. -/
theorem revealFold_shape (l : List HiddenEntry) (acc : Game) :
    ∃ t b, revealMoveFold l acc = { acc with banquetTop := t, banquetBottom := b } := by
  induction l generalizing acc with
  | nil => exact ⟨acc.banquetTop, acc.banquetBottom, rfl⟩
  | cons e tl ih =>
      cases hs : e.sign with
      | top =>
          obtain ⟨t, b, h⟩ := ih
            { acc with banquetTop := acc.banquetTop.modify (unhideCard e.card).color (fun x => x ++ [unhideCard e.card]) }
          refine ⟨t, b, ?_⟩
          rw [revealMoveFold] at h
          rw [revealMoveFold, List.foldl_cons]
          simp only [hs]
          exact h
      | bottom =>
          obtain ⟨t, b, h⟩ := ih
            { acc with banquetBottom := acc.banquetBottom.modify (unhideCard e.card).color (fun x => x ++ [unhideCard e.card]) }
          refine ⟨t, b, ?_⟩
          rw [revealMoveFold] at h
          rw [revealMoveFold, List.foldl_cons]
          simp only [hs]
          exact h

@[simp] theorem revealMoveFold_currentTurn (l : List HiddenEntry) (acc : Game) :
    (revealMoveFold l acc).currentTurn = acc.currentTurn := by
  obtain ⟨t, b, h⟩ := revealFold_shape l acc
  rw [h]

@[simp] theorem revealMoveFold_playerIds (l : List HiddenEntry) (acc : Game) :
    (revealMoveFold l acc).playerIds = acc.playerIds := by
  obtain ⟨t, b, h⟩ := revealFold_shape l acc
  rw [h]

@[simp] theorem revealMoveFold_players (l : List HiddenEntry) (acc : Game) :
    (revealMoveFold l acc).players = acc.players := by
  obtain ⟨t, b, h⟩ := revealFold_shape l acc
  rw [h]

@[simp] theorem revealMoveFold_deck (l : List HiddenEntry) (acc : Game) :
    (revealMoveFold l acc).deck = acc.deck := by
  obtain ⟨t, b, h⟩ := revealFold_shape l acc
  rw [h]

@[simp] theorem revealMoveFold_moves (l : List HiddenEntry) (acc : Game) :
    (revealMoveFold l acc).moves = acc.moves := by
  obtain ⟨t, b, h⟩ := revealFold_shape l acc
  rw [h]

@[simp] theorem revealMoveFold_pendingKill (l : List HiddenEntry) (acc : Game) :
    (revealMoveFold l acc).pendingKill = acc.pendingKill := by
  obtain ⟨t, b, h⟩ := revealFold_shape l acc
  rw [h]

@[simp] theorem revealMoveFold_started (l : List HiddenEntry) (acc : Game) :
    (revealMoveFold l acc).started = acc.started := by
  obtain ⟨t, b, h⟩ := revealFold_shape l acc
  rw [h]

@[simp] theorem revealMoveFold_hiddenBanquet (l : List HiddenEntry) (acc : Game) :
    (revealMoveFold l acc).hiddenBanquet = acc.hiddenBanquet := by
  obtain ⟨t, b, h⟩ := revealFold_shape l acc
  rw [h]

@[simp] theorem revealMoveFold_objectives (l : List HiddenEntry) (acc : Game) :
    (revealMoveFold l acc).objectives = acc.objectives := by
  obtain ⟨t, b, h⟩ := revealFold_shape l acc
  rw [h]

@[simp] theorem revealMoveFold_revealHidden (l : List HiddenEntry) (acc : Game) :
    (revealMoveFold l acc).revealHidden = acc.revealHidden := by
  obtain ⟨t, b, h⟩ := revealFold_shape l acc
  rw [h]

@[simp] theorem revealMoveFold_history (l : List HiddenEntry) (acc : Game) :
    (revealMoveFold l acc).history = acc.history := by
  obtain ⟨t, b, h⟩ := revealFold_shape l acc
  rw [h]

theorem checkGameOver_currentTurn (g : Game) :
    g.checkGameOver.currentTurn = g.currentTurn := by
  rw [checkGameOver]
  split
  · rfl
  · split
    · rfl
    · split
      · rfl
      · simp

theorem checkGameOver_playerIds (g : Game) :
    g.checkGameOver.playerIds = g.playerIds := by
  rw [checkGameOver]
  split
  · rfl
  · split
    · rfl
    · split
      · rfl
      · simp

theorem checkGameOver_moves (g : Game) : g.checkGameOver.moves = g.moves := by
  rw [checkGameOver]
  split
  · rfl
  · split
    · rfl
    · split
      · rfl
      · simp

/-- Game-over detection clears or keeps, never creates, a pending kill. -/
theorem checkGameOver_pendingKill_none (g : Game) (h : g.pendingKill = none) :
    g.checkGameOver.pendingKill = none := by
  rw [checkGameOver]
  split
  · exact h
  · split
    · exact h
    · split
      · exact h
      · simp

/-- `endTurn` cannot create a pending kill. -/
theorem endTurn_pendingKill_none (g : Game) (h : g.pendingKill = none) :
    g.endTurn.pendingKill = none := by
  rw [endTurn]
  obtain ⟨d, p, hdraw⟩ := drawCards_shape
    { g with moves := fun q => if q = g.currentTurn then some Moves.empty else g.moves q }
    g.currentTurn 3
  rw [hdraw]
  exact checkGameOver_pendingKill_none _ h

/-- The turn pointer produced by `endTurn` is `nextSeat`, evaluated on the
entry state. -/
theorem endTurn_currentTurn (g : Game) : g.endTurn.currentTurn = nextSeat g := by
  rw [endTurn]
  obtain ⟨d, p, hdraw⟩ := drawCards_shape
    { g with moves := fun q => if q = g.currentTurn then some Moves.empty else g.moves q }
    g.currentTurn 3
  rw [hdraw]
  rw [checkGameOver_currentTurn]
  simp [nextSeat]

end Game

section Counting

open Game

/-- Weighted card count over every zone of the session; `totalCards` and the
shield count are instances. -/
def countZones (w : Card → Nat) (g : Game) : Nat :=
  (g.deck.map w).sum +
  (g.playerIds.map fun pid =>
    (((g.players pid).map (fun p => (p.hand.map w).sum + (p.domain.map w).sum))).getD 0).sum +
  (COLORS.map fun c =>
    ((g.banquetTop.get c).map w).sum + ((g.banquetBottom.get c).map w).sum).sum +
  (g.hiddenBanquet.map (fun e => w e.card)).sum

/-- Weights that depend only on a card's type survive every transformation
the engine applies to an individual card. -/
def TypeWeight (w : Card → Nat) : Prop :=
  ∀ c₁ c₂ : Card, c₁.type = c₂.type → w c₁ = w c₂

theorem sum_map_one (l : List α) : (l.map (fun _ => 1)).sum = l.length := by
  induction l with
  | nil => rfl
  | cons x xs ih => simp [ih]; omega

theorem sum_map_indicator (p : α → Bool) (l : List α) :
    (l.map (fun c => if p c then 1 else 0)).sum = (l.filter p).length := by
  induction l with
  | nil => rfl
  | cons x xs ih =>
      by_cases hx : p x <;> simp [hx, ih] <;> omega

theorem totalCards_eq_countZones (g : Game) : g.totalCards = countZones (fun _ => 1) g := by
  unfold Game.totalCards countZones
  congr 1
  · congr 1
    · congr 1
      · exact (sum_map_one _).symm
      · apply congrArg
        apply List.map_congr_left
        intro pid _
        cases g.players pid with
        | none => rfl
        | some p => simp [sum_map_one]
    · apply congrArg
      apply List.map_congr_left
      intro c _
      simp [sum_map_one]
  · exact (sum_map_one _).symm

theorem sum_map_eraseIdx {w : α → Nat} {l : List α} {i : Nat} {c : α}
    (h : l.get? i = some c) :
    ((l.eraseIdx i).map w).sum + w c = (l.map w).sum := by
  induction l generalizing i with
  | nil => simp at h
  | cons x xs ih =>
      cases i with
      | zero =>
          simp only [List.get?] at h
          injection h with h
          subst h
          simp [List.eraseIdx]
          omega
      | succ j =>
          simp only [List.get?] at h
          have := ih h
          simp [List.eraseIdx]
          omega

theorem sum_map_dropLast {w : α → Nat} {l : List α} {c : α}
    (h : l.getLast? = some c) :
    (l.dropLast.map w).sum + w c = (l.map w).sum := by
  induction l with
  | nil => simp at h
  | cons x xs ih =>
      cases xs with
      | nil =>
          simp at h
          subst h
          simp
      | cons y ys =>
          rw [List.getLast?_cons_cons] at h
          have hih := ih h
          have hdl : (x :: y :: ys).dropLast = x :: (y :: ys).dropLast := rfl
          calc ((x :: y :: ys).dropLast.map w).sum + w c
              = w x + (((y :: ys).dropLast.map w).sum + w c) := by
                rw [hdl]; simp [add_assoc]
            _ = w x + ((y :: ys).map w).sum := by rw [hih]
            _ = ((x :: y :: ys).map w).sum := by simp

/-- The per-seat weighted hand-plus-domain count used inside `countZones`. -/
def seatCount (w : Card → Nat) (players : String → Option PlayerState) (pid : String) : Nat :=
  (((players pid).map (fun p => (p.hand.map w).sum + (p.domain.map w).sum))).getD 0

theorem countZones_eq (w : Card → Nat) (g : Game) :
    countZones w g = (g.deck.map w).sum + (g.playerIds.map (seatCount w g.players)).sum +
      (COLORS.map fun c =>
        ((g.banquetTop.get c).map w).sum + ((g.banquetBottom.get c).map w).sum).sum +
      (g.hiddenBanquet.map (fun e => w e.card)).sum := rfl

theorem countZones_pushHistory (w : Card → Nat) (g : Game) (i : HistoryItem) :
    countZones w (g.pushHistory i) = countZones w g := rfl

theorem countZones_queueKill (w : Card → Nat) (g : Game) (a : String) (z : PlayZone)
    (t : Option String) : countZones w (g.queueKill a z t) = countZones w g := rfl

theorem countZones_setMoves (w : Card → Nat) (g : Game) (pid : String) (m : Moves) :
    countZones w (g.setMoves pid m) = countZones w g := rfl

theorem seatCount_const (w : Card → Nat) (pl : String → Option PlayerState)
    (pid q : String) (p p' : PlayerState) (h : pl q = some p) :
    seatCount w (fun x => if x = q then some p' else pl x) q =
      ((p'.hand.map w).sum + (p'.domain.map w).sum) := by
  simp [seatCount]

theorem countZones_drawCards (w : Card → Nat) (hw : TypeWeight w) (g : Game) (pid : String)
    (hnd : g.playerIds.Nodup) (hsm : ∀ q, (g.players q).isSome → q ∈ g.playerIds) :
    ∀ n, countZones w (g.drawCards pid n) = countZones w g := by
  intro n
  induction n generalizing g with
  | zero => rfl
  | succ n ih =>
      rw [Game.drawCards]
      cases hp : g.players pid with
      | none => rfl
      | some p =>
          cases hd : g.deck.getLast? with
          | none => exact ih g hnd hsm
          | some card =>
              set card' : Card := { card with ownerId := pid } with hcard
              set p' : PlayerState := { p with hand := p.hand ++ [card'] } with hp'
              set g' : Game := { g with
                deck := g.deck.dropLast
                players := fun q => if q = pid then some p' else g.players q } with hg'
              have hrec : countZones w (g'.drawCards pid n) = countZones w g' := by
                apply ih
                · exact hnd
                · intro q hq
                  by_cases hqe : q = pid
                  · subst hqe
                    exact hsm q (by simp [hp])
                  · apply hsm
                    simpa [hg', hqe] using hq
              rw [hrec]
              have hmem : pid ∈ g.playerIds := hsm pid (by simp [hp])
              have e1 : ((g.deck.dropLast.map w)).sum + w card = (g.deck.map w).sum :=
                sum_map_dropLast hd
              have e3 : seatCount w g'.players pid =
                  seatCount w g.players pid + w card := by
                simp [hg', seatCount, hp, hp', List.sum_append]
                have : w card' = w card := hw _ _ rfl
                simp [this]
                omega
              have e2 : (g.playerIds.map (seatCount w g'.players)).sum +
                  seatCount w g.players pid =
                  (g.playerIds.map (seatCount w g.players)).sum +
                  seatCount w g'.players pid := by
                apply map_sum_update g.playerIds hnd _ _ pid hmem
                intro q hq
                simp [hg', seatCount, hq]
              rw [countZones_eq, countZones_eq]
              have hdeck : g'.deck = g.deck.dropLast := rfl
              have hpiles : g'.banquetTop = g.banquetTop ∧ g'.banquetBottom = g.banquetBottom ∧
                  g'.hiddenBanquet = g.hiddenBanquet ∧ g'.playerIds = g.playerIds := ⟨rfl, rfl, rfl, rfl⟩
              rw [hdeck, hpiles.1, hpiles.2.1, hpiles.2.2.1, hpiles.2.2.2]
              omega

theorem pilesSumW_push (w : Card → Nat) (t b : ByColor (List Card)) (c : CardColor) (x : Card) :
    ((COLORS.map fun col => (((t.modify c (· ++ [x])).get col).map w).sum +
      ((b.get col).map w).sum).sum =
      (COLORS.map fun col => ((t.get col).map w).sum + ((b.get col).map w).sum).sum + w x) ∧
    ((COLORS.map fun col => ((t.get col).map w).sum +
      (((b.modify c (· ++ [x])).get col).map w).sum).sum =
      (COLORS.map fun col => ((t.get col).map w).sum + ((b.get col).map w).sum).sum + w x) := by
  constructor <;> cases c <;>
    simp [COLORS, ByColor.modify, ByColor.setC, ByColor.get, List.sum_append] <;> omega

theorem revealFold_pilesSum (w : Card → Nat) (hw : TypeWeight w) (l : List HiddenEntry) :
    ∀ acc : Game,
    (COLORS.map fun c => (((revealMoveFold l acc).banquetTop.get c).map w).sum +
      (((revealMoveFold l acc).banquetBottom.get c).map w).sum).sum =
    (COLORS.map fun c => ((acc.banquetTop.get c).map w).sum +
      ((acc.banquetBottom.get c).map w).sum).sum + (l.map (fun e => w e.card)).sum := by
  induction l with
  | nil => intro acc; simp [revealMoveFold]
  | cons e tl ih =>
      intro acc
      have hwc : w (unhideCard e.card) = w e.card := hw _ _ rfl
      cases hs : e.sign with
      | top =>
          have hstep : revealMoveFold (e :: tl) acc = revealMoveFold tl
              { acc with banquetTop := acc.banquetTop.modify (unhideCard e.card).color (fun xs => xs ++ [unhideCard e.card]) } := by
            rw [revealMoveFold, List.foldl_cons]
            simp only [hs]
            rfl
          rw [hstep, ih]
          have := (pilesSumW_push w acc.banquetTop acc.banquetBottom
            (unhideCard e.card).color (unhideCard e.card)).1
          simp only [List.map_cons, List.sum_cons]
          rw [this, hwc]
          omega
      | bottom =>
          have hstep : revealMoveFold (e :: tl) acc = revealMoveFold tl
              { acc with banquetBottom := acc.banquetBottom.modify (unhideCard e.card).color (fun xs => xs ++ [unhideCard e.card]) } := by
            rw [revealMoveFold, List.foldl_cons]
            simp only [hs]
            rfl
          rw [hstep, ih]
          have := (pilesSumW_push w acc.banquetTop acc.banquetBottom
            (unhideCard e.card).color (unhideCard e.card)).2
          simp only [List.map_cons, List.sum_cons]
          rw [this, hwc]
          omega

theorem countZones_checkGameOver (w : Card → Nat) (hw : TypeWeight w) (g : Game) :
    countZones w g.checkGameOver = countZones w g := by
  rw [Game.checkGameOver]
  split
  · rfl
  split
  · rfl
  split
  · rfl
  simp only []
  rw [countZones_eq, countZones_eq]
  set g2 : Game := { g with
    revealHidden := true
    pendingKill := none
    players := fun q =>
      if q ∈ g.playerIds then
        (g.players q).map (fun (p : PlayerState) => { p with domain := p.domain.map restoreSpy })
      else g.players q
    banquetTop := ByColor.ofFun (fun c => (g.banquetTop.get c).map restoreSpy)
    banquetBottom := ByColor.ofFun (fun c => (g.banquetBottom.get c).map restoreSpy) } with hg2
  have hmapc : ∀ (l : List Card), (l.map (w ∘ Game.restoreSpy)).sum = (l.map w).sum := by
    intro l
    apply congrArg
    apply List.map_congr_left
    intro c _
    exact hw _ _ (by simp [Game.restoreSpy]; split <;> rfl)
  have hmap : ∀ (l : List Card), ((l.map Game.restoreSpy).map w).sum = (l.map w).sum := by
    intro l
    rw [List.map_map]
    exact hmapc l
  have hseat : (g.playerIds.map (seatCount w g2.players)).sum =
      (g.playerIds.map (seatCount w g.players)).sum := by
    apply congrArg
    apply List.map_congr_left
    intro pid hpid
    simp only [hg2, seatCount, hpid, if_pos]
    cases g.players pid with
    | none => rfl
    | some p => simp [hmapc]
  have hpiles0 : (COLORS.map fun c => ((g2.banquetTop.get c).map w).sum +
      ((g2.banquetBottom.get c).map w).sum).sum =
      (COLORS.map fun c => ((g.banquetTop.get c).map w).sum +
        ((g.banquetBottom.get c).map w).sum).sum := by
    apply congrArg
    apply List.map_congr_left
    intro c _
    simp only [hg2, ByColor.get_ofFun]
    rw [hmap, hmap]
  have hfold := revealFold_pilesSum w hw g2.hiddenBanquet g2
  have hhb : g2.hiddenBanquet = g.hiddenBanquet := rfl
  have hdeck : (revealMoveFold g2.hiddenBanquet g2).deck = g.deck := by
    rw [revealMoveFold_deck]
  have hplayers : (revealMoveFold g2.hiddenBanquet g2).players = g2.players := by
    rw [revealMoveFold_players]
  have hpids : (revealMoveFold g2.hiddenBanquet g2).playerIds = g.playerIds := by
    rw [revealMoveFold_playerIds]
  simp only [hplayers, hpids, hdeck]
  rw [hseat]
  rw [hhb] at hfold
  rw [hfold, hpiles0, hhb]
  simp
  omega

theorem countZones_setMovesFn (w : Card → Nat) (g : Game)
    (mv : String → Option Moves) : countZones w { g with moves := mv } = countZones w g := rfl

theorem countZones_endTurn (w : Card → Nat) (hw : TypeWeight w) (g : Game)
    (hnd : g.playerIds.Nodup) (hsm : ∀ q, (g.players q).isSome → q ∈ g.playerIds) :
    countZones w g.endTurn = countZones w g := by
  rw [Game.endTurn]
  simp only []
  rw [countZones_checkGameOver w hw]
  obtain ⟨d, p, hdraw⟩ := Game.drawCards_shape
    { g with moves := fun q => if q = g.currentTurn then some Moves.empty else g.moves q }
    g.currentTurn 3
  rw [hdraw]
  have key : countZones w g = countZones w
      ({ g with moves := fun q => if q = g.currentTurn then some Moves.empty else g.moves q,
                deck := d, players := p } : Game) := by
    rw [← hdraw]
    exact (countZones_drawCards w hw
      { g with moves := fun q => if q = g.currentTurn then some Moves.empty else g.moves q }
      g.currentTurn hnd hsm 3).symm
  rw [key]
  rfl

section ProjectionLemmas

open Game

@[simp] theorem pushHistory_currentTurn (g : Game) (i : HistoryItem) :
    (g.pushHistory i).currentTurn = g.currentTurn := rfl

@[simp] theorem pushHistory_deck (g : Game) (i : HistoryItem) :
    (g.pushHistory i).deck = g.deck := rfl

@[simp] theorem pushHistory_pendingKill (g : Game) (i : HistoryItem) :
    (g.pushHistory i).pendingKill = g.pendingKill := rfl

@[simp] theorem pushHistory_playerIds (g : Game) (i : HistoryItem) :
    (g.pushHistory i).playerIds = g.playerIds := rfl

@[simp] theorem pushHistory_players (g : Game) (i : HistoryItem) :
    (g.pushHistory i).players = g.players := rfl

@[simp] theorem pushHistory_moves (g : Game) (i : HistoryItem) :
    (g.pushHistory i).moves = g.moves := rfl

@[simp] theorem pushHistory_started (g : Game) (i : HistoryItem) :
    (g.pushHistory i).started = g.started := rfl

@[simp] theorem queueKill_currentTurn (g : Game) (a : String) (z : PlayZone)
    (t : Option String) : (g.queueKill a z t).currentTurn = g.currentTurn := rfl

@[simp] theorem queueKill_deck (g : Game) (a : String) (z : PlayZone)
    (t : Option String) : (g.queueKill a z t).deck = g.deck := rfl

@[simp] theorem queueKill_playerIds (g : Game) (a : String) (z : PlayZone)
    (t : Option String) : (g.queueKill a z t).playerIds = g.playerIds := rfl

@[simp] theorem queueKill_players (g : Game) (a : String) (z : PlayZone)
    (t : Option String) : (g.queueKill a z t).players = g.players := rfl

@[simp] theorem queueKill_moves (g : Game) (a : String) (z : PlayZone)
    (t : Option String) : (g.queueKill a z t).moves = g.moves := rfl

@[simp] theorem setMoves_currentTurn (g : Game) (pid : String) (m : Moves) :
    (g.setMoves pid m).currentTurn = g.currentTurn := rfl

@[simp] theorem setMoves_deck (g : Game) (pid : String) (m : Moves) :
    (g.setMoves pid m).deck = g.deck := rfl

@[simp] theorem setMoves_players (g : Game) (pid : String) (m : Moves) :
    (g.setMoves pid m).players = g.players := rfl

@[simp] theorem setMoves_playerIds (g : Game) (pid : String) (m : Moves) :
    (g.setMoves pid m).playerIds = g.playerIds := rfl

@[simp] theorem setMoves_pendingKill (g : Game) (pid : String) (m : Moves) :
    (g.setMoves pid m).pendingKill = g.pendingKill := rfl

@[simp] theorem setPlayer_currentTurn (g : Game) (pid : String) (p : PlayerState) :
    (g.setPlayer pid p).currentTurn = g.currentTurn := rfl

@[simp] theorem setPlayer_deck (g : Game) (pid : String) (p : PlayerState) :
    (g.setPlayer pid p).deck = g.deck := rfl

@[simp] theorem setPlayer_playerIds (g : Game) (pid : String) (p : PlayerState) :
    (g.setPlayer pid p).playerIds = g.playerIds := rfl

@[simp] theorem setPlayer_pendingKill (g : Game) (pid : String) (p : PlayerState) :
    (g.setPlayer pid p).pendingKill = g.pendingKill := rfl

@[simp] theorem setPlayer_moves (g : Game) (pid : String) (p : PlayerState) :
    (g.setPlayer pid p).moves = g.moves := rfl

@[simp] theorem updPlayer_currentTurn (g : Game) (pid : String) (f : PlayerState → PlayerState) :
    (g.updPlayer pid f).currentTurn = g.currentTurn := rfl

@[simp] theorem updPlayer_deck (g : Game) (pid : String) (f : PlayerState → PlayerState) :
    (g.updPlayer pid f).deck = g.deck := rfl

@[simp] theorem updPlayer_playerIds (g : Game) (pid : String) (f : PlayerState → PlayerState) :
    (g.updPlayer pid f).playerIds = g.playerIds := rfl

@[simp] theorem updPlayer_pendingKill (g : Game) (pid : String) (f : PlayerState → PlayerState) :
    (g.updPlayer pid f).pendingKill = g.pendingKill := rfl

@[simp] theorem updPlayer_moves (g : Game) (pid : String) (f : PlayerState → PlayerState) :
    (g.updPlayer pid f).moves = g.moves := rfl

theorem leftNeighborId_isSome (g : Game) (pid : String) (hmem : pid ∈ g.playerIds)
    (hlen : 2 ≤ g.playerIds.length) : (g.leftNeighborId pid).isSome := by
  rw [Game.leftNeighborId]
  have hfs : (g.playerIds.findIdx? (· = pid)).isSome := by
    rw [List.findIdx?_isSome]
    exact List.any_eq_true.mpr ⟨pid, hmem, by simp⟩
  obtain ⟨i, hi⟩ := Option.isSome_iff_exists.mp hfs
  rw [hi]
  show (if g.playerIds.length < 2 then none
    else g.playerIds.get? ((i + 1) % g.playerIds.length)).isSome = true
  rw [if_neg (by omega)]
  have hlt : ((i + 1) % g.playerIds.length) < g.playerIds.length :=
    Nat.mod_lt _ (by omega)
  cases hg : g.playerIds.get? ((i + 1) % g.playerIds.length) with
  | none =>
      have := List.get?_eq_none.mp hg
      omega
  | some x => rfl

end ProjectionLemmas

section PlayCardMaster

open Game

theorem finishPlay_spec (w : Card → Nat) (hw : TypeWeight w) (gZ : Game)
    (playerId : String) (card : Card) (z : PlayZone) (tp : Option String)
    (hnd : gZ.playerIds.Nodup) (hsm : ∀ q, (gZ.players q).isSome → q ∈ gZ.playerIds) :
    countZones w (finishPlay gZ playerId card z tp).2 = countZones w gZ ∧
    ((finishPlay gZ playerId card z tp).2.pendingKill.isSome →
      (finishPlay gZ playerId card z tp).2.currentTurn = gZ.currentTurn ∧
      (finishPlay gZ playerId card z tp).2.deck = gZ.deck) := by
  rw [finishPlay]
  obtain ⟨gK, hgK, hcount, hct, hdk, hpids, hpl⟩ :
      ∃ gK, (if card.type = .K then
          (gZ.pushHistory (playHistoryItem gZ playerId card z tp)).queueKill playerId z
            (playOpponentId gZ playerId z tp)
        else gZ.pushHistory (playHistoryItem gZ playerId card z tp)) = gK ∧
        countZones w gK = countZones w gZ ∧ gK.currentTurn = gZ.currentTurn ∧
        gK.deck = gZ.deck ∧ gK.playerIds = gZ.playerIds ∧ gK.players = gZ.players := by
    split
    · exact ⟨_, rfl, by rw [countZones_queueKill, countZones_pushHistory], rfl, rfl, rfl, rfl⟩
    · exact ⟨_, rfl, by rw [countZones_pushHistory], rfl, rfl, rfl, rfl⟩
  rw [hgK]
  split
  · split
    · exact ⟨hcount, fun _ => ⟨hct, hdk⟩⟩
    · refine ⟨?_, ?_⟩
      · rw [countZones_endTurn w hw gK (hpids ▸ hnd)
          (fun q hq => hpids ▸ hsm q (hpl ▸ hq))]
        exact hcount
      · intro hps
        exfalso
        rw [endTurn_pendingKill_none gK (by
          rename_i hnone
          simpa using hnone)] at hps
        simp at hps
  · exact ⟨hcount, fun _ => ⟨hct, hdk⟩⟩

theorem countZones_push_hidden (w : Card → Nat) (g : Game) (c : Card) (s : HiddenSign) :
    countZones w { g with hiddenBanquet := g.hiddenBanquet ++ [⟨c, s⟩] } =
      countZones w g + w c := by
  unfold countZones
  simp
  omega

theorem countZones_push_pile (w : Card → Nat) (g : Game) (col : CardColor) (c : Card) :
    countZones w { g with banquetTop := g.banquetTop.modify col (· ++ [c]) } =
      countZones w g + w c ∧
    countZones w { g with banquetBottom := g.banquetBottom.modify col (· ++ [c]) } =
      countZones w g + w c := by
  have h := pilesSumW_push w g.banquetTop g.banquetBottom col c
  constructor
  · rw [countZones_eq, countZones_eq]
    simp only []
    rw [h.1]
    omega
  · rw [countZones_eq, countZones_eq]
    simp only []
    rw [h.2]
    omega

theorem countZones_setPlayer_delta (w : Card → Nat) (g : Game) (pid : String)
    (pOld pNew : PlayerState) (hold : g.players pid = some pOld)
    (hmem : pid ∈ g.playerIds) (hnd : g.playerIds.Nodup) :
    countZones w (g.setPlayer pid pNew) +
      ((pOld.hand.map w).sum + (pOld.domain.map w).sum) =
    countZones w g + ((pNew.hand.map w).sum + (pNew.domain.map w).sum) := by
  have h := map_sum_update g.playerIds hnd (seatCount w g.players)
    (seatCount w (g.setPlayer pid pNew).players) pid hmem
    (by intro q hq; simp [Game.setPlayer, seatCount, hq])
  have hOld : seatCount w g.players pid = (pOld.hand.map w).sum + (pOld.domain.map w).sum := by
    simp [seatCount, hold]
  have hNew : seatCount w (g.setPlayer pid pNew).players pid =
      (pNew.hand.map w).sum + (pNew.domain.map w).sum := by
    simp [Game.setPlayer, seatCount]
  rw [countZones_eq, countZones_eq]
  have hpids : (g.setPlayer pid pNew).playerIds = g.playerIds := rfl
  rw [hpids]
  rw [hOld, hNew] at h
  have hdeck : (g.setPlayer pid pNew).deck = g.deck := rfl
  have htop : (g.setPlayer pid pNew).banquetTop = g.banquetTop := rfl
  have hbot : (g.setPlayer pid pNew).banquetBottom = g.banquetBottom := rfl
  have hhid : (g.setPlayer pid pNew).hiddenBanquet = g.hiddenBanquet := rfl
  rw [hdeck, htop, hbot, hhid]
  omega

theorem countZones_updPlayer_delta (w : Card → Nat) (g : Game) (pid : String)
    (p : PlayerState) (f : PlayerState → PlayerState) (hold : g.players pid = some p)
    (hmem : pid ∈ g.playerIds) (hnd : g.playerIds.Nodup) :
    countZones w (g.updPlayer pid f) + ((p.hand.map w).sum + (p.domain.map w).sum) =
    countZones w g + (((f p).hand.map w).sum + ((f p).domain.map w).sum) := by
  have h := map_sum_update g.playerIds hnd (seatCount w g.players)
    (seatCount w (g.updPlayer pid f).players) pid hmem
    (by intro q hq; simp [Game.updPlayer, seatCount, hq])
  have hOld : seatCount w g.players pid = (p.hand.map w).sum + (p.domain.map w).sum := by
    simp [seatCount, hold]
  have hNew : seatCount w (g.updPlayer pid f).players pid =
      ((f p).hand.map w).sum + ((f p).domain.map w).sum := by
    simp [Game.updPlayer, seatCount, hold]
  rw [countZones_eq, countZones_eq]
  have hpids : (g.updPlayer pid f).playerIds = g.playerIds := rfl
  rw [hpids]
  rw [hOld, hNew] at h
  have hdeck : (g.updPlayer pid f).deck = g.deck := rfl
  have htop : (g.updPlayer pid f).banquetTop = g.banquetTop := rfl
  have hbot : (g.updPlayer pid f).banquetBottom = g.banquetBottom := rfl
  have hhid : (g.updPlayer pid f).hiddenBanquet = g.hiddenBanquet := rfl
  rw [hdeck, htop, hbot, hhid]
  omega

theorem leftNeighborId_mem (g : Game) (pid o : String)
    (h : g.leftNeighborId pid = some o) : o ∈ g.playerIds := by
  rw [Game.leftNeighborId] at h
  cases hf : g.playerIds.findIdx? (· = pid) with
  | none => rw [hf] at h; cases h
  | some i =>
      rw [hf] at h
      have h2 : (if g.playerIds.length < 2 then none
          else g.playerIds.get? ((i + 1) % g.playerIds.length)) = some o := h
      by_cases hl : g.playerIds.length < 2
      · rw [if_pos hl] at h2; cases h2
      · rw [if_neg hl] at h2
        exact List.get?_mem h2

theorem resolveOpponent_isSome (g : Game) (pid : String) (tp : Option String)
    (o : String) (h : g.resolveOpponent pid tp = some o)
    (hiff : ∀ q, (g.players q).isSome ↔ q ∈ g.playerIds) :
    (g.players o).isSome ∧ o ∈ g.playerIds := by
  rw [Game.resolveOpponent.eq_def] at h
  cases tp with
  | none =>
      have hm := leftNeighborId_mem g pid o h
      exact ⟨(hiff o).mpr hm, hm⟩
  | some t =>
      have h2 : (if t ≠ "" ∧ (g.players t).isSome ∧ t ≠ pid then some t
          else g.leftNeighborId pid) = some o := h
      by_cases hv : t ≠ "" ∧ (g.players t).isSome ∧ t ≠ pid
      · rw [if_pos hv] at h2
        cases h2
        exact ⟨hv.2.1, (hiff o).mp hv.2.1⟩
      · rw [if_neg hv] at h2
        have hm := leftNeighborId_mem g pid o h2
        exact ⟨(hiff o).mpr hm, hm⟩

theorem routePlay_spec (w : Card → Nat) (gS : Game) (playerId : String)
    (player playerSpliced : PlayerState) (m : Moves) (card : Card) (z : PlayZone)
    (tp : Option String)
    (hnd : gS.playerIds.Nodup)
    (hiff : ∀ q, (gS.players q).isSome ↔ q ∈ gS.playerIds)
    (hmem : playerId ∈ gS.playerIds)
    (hps : gS.players playerId = some playerSpliced)
    (hdomain : playerSpliced.domain = player.domain)
    (hopp : z = .opponent → (gS.leftNeighborId playerId).isSome) :
    ∃ gZ, routePlay gS playerId player playerSpliced m card z tp = (.ok (), gZ) ∧
      countZones w gZ = countZones w gS + w card ∧
      gZ.currentTurn = gS.currentTurn ∧ gZ.deck = gS.deck ∧
      gZ.playerIds = gS.playerIds ∧
      (∀ q, (gZ.players q).isSome ↔ q ∈ gZ.playerIds) ∧
      gZ.pendingKill = gS.pendingKill := by
  cases z with
  | banquet_top =>
      rw [routePlay]
      by_cases hh : card.type = .T ∧ gS.revealHidden = false
      · rw [if_pos hh]
        refine ⟨_, rfl, ?_, rfl, rfl, rfl, ?_, rfl⟩
        · rw [countZones_setMoves, countZones_push_hidden]
        · intro q
          exact hiff q
      · rw [if_neg hh]
        refine ⟨_, rfl, ?_, rfl, rfl, rfl, ?_, rfl⟩
        · rw [countZones_setMoves, (countZones_push_pile w gS card.color card).1]
        · intro q
          exact hiff q
  | banquet_bottom =>
      rw [routePlay]
      by_cases hh : card.type = .T ∧ gS.revealHidden = false
      · rw [if_pos hh]
        refine ⟨_, rfl, ?_, rfl, rfl, rfl, ?_, rfl⟩
        · rw [countZones_setMoves, countZones_push_hidden]
        · intro q
          exact hiff q
      · rw [if_neg hh]
        refine ⟨_, rfl, ?_, rfl, rfl, rfl, ?_, rfl⟩
        · rw [countZones_setMoves, (countZones_push_pile w gS card.color card).2]
        · intro q
          exact hiff q
  | self =>
      rw [routePlay]
      refine ⟨_, rfl, ?_, rfl, rfl, rfl, ?_, rfl⟩
      · rw [countZones_setMoves]
        have h := countZones_setPlayer_delta w gS playerId playerSpliced
          { playerSpliced with domain := player.domain ++ [card] } hps hmem hnd
        simp only [hdomain] at h ⊢
        simp [List.sum_append] at h
        omega
      · intro q
        by_cases hq : q = playerId
        · subst hq
          simp [Game.setPlayer, Game.setMoves]
          exact hmem
        · simp [Game.setPlayer, Game.setMoves, hq]
          exact hiff q
  | opponent =>
      rw [routePlay]
      cases hro : gS.resolveOpponent playerId tp with
      | none =>
          exfalso
          have hsome := hopp rfl
          rw [Game.resolveOpponent.eq_def] at hro
          cases tp with
          | none =>
              have hro2 : gS.leftNeighborId playerId = none := hro
              rw [hro2] at hsome
              cases hsome
          | some t =>
              have hro2 : (if t ≠ "" ∧ (gS.players t).isSome ∧ t ≠ playerId then some t
                  else gS.leftNeighborId playerId) = none := hro
              by_cases hv : t ≠ "" ∧ (gS.players t).isSome ∧ t ≠ playerId
              · rw [if_pos hv] at hro2; cases hro2
              · rw [if_neg hv] at hro2
                rw [hro2] at hsome
                cases hsome
      | some opp =>
          obtain ⟨hosome, homem⟩ := resolveOpponent_isSome gS playerId tp opp hro hiff
          obtain ⟨po, hpo⟩ := Option.isSome_iff_exists.mp hosome
          refine ⟨_, rfl, ?_, rfl, rfl, rfl, ?_, rfl⟩
          · rw [countZones_setMoves]
            have h := countZones_updPlayer_delta w gS opp po
              (fun p => { p with domain := p.domain ++ [card] }) hpo homem hnd
            simp [List.sum_append] at h
            omega
          · intro q
            by_cases hq : q = opp
            · subst hq
              simp [Game.updPlayer, Game.setMoves, hpo]
              exact homem
            · simp [Game.updPlayer, Game.setMoves, hq]
              exact hiff q

theorem playCard_master (w : Card → Nat) (hw : TypeWeight w) (g : Game)
    (pid cid : String) (z : PlayZone) (tp : Option String) (hWF : WF g) :
    countZones w (g.playCard pid cid z tp).2 = countZones w g ∧
    ((g.playCard pid cid z tp).2.pendingKill.isSome →
      (g.playCard pid cid z tp).2.currentTurn = g.currentTurn ∧
      (g.playCard pid cid z tp).2.deck = g.deck) := by
  obtain ⟨hnd, hiff, hmv, hstart⟩ := hWF
  rw [Game.playCard]
  by_cases h1 : g.started = false
  · rw [if_pos h1]
    exact ⟨rfl, fun _ => ⟨rfl, rfl⟩⟩
  rw [if_neg h1]
  by_cases h2 : pid ≠ g.currentTurn
  · rw [if_pos h2]
    exact ⟨rfl, fun _ => ⟨rfl, rfl⟩⟩
  rw [if_neg h2]
  push_neg at h2
  have hmem : pid ∈ g.playerIds := by
    rw [h2]
    exact (hstart (by revert h1; cases g.started <;> simp)).1
  have hlen : 2 ≤ g.playerIds.length :=
    (hstart (by revert h1; cases g.started <;> simp)).2
  cases hp : g.players pid with
  | none => exact ⟨rfl, fun _ => ⟨rfl, rfl⟩⟩
  | some player =>
  simp only []
  cases hfind : player.hand.findIdx? (fun c => c.id = cid) with
  | none => exact ⟨rfl, fun _ => ⟨rfl, rfl⟩⟩
  | some i =>
  simp only []
  cases hm : g.moves pid with
  | none => exact ⟨rfl, fun _ => ⟨rfl, rfl⟩⟩
  | some m =>
  simp only []
  by_cases hb1 : (z = .banquet_top ∨ z = .banquet_bottom) ∧ m.banquet.isSome
  · rw [if_pos hb1]
    exact ⟨rfl, fun _ => ⟨rfl, rfl⟩⟩
  rw [if_neg hb1]
  by_cases hb2 : z = .self ∧ m.self.isSome
  · rw [if_pos hb2]
    exact ⟨rfl, fun _ => ⟨rfl, rfl⟩⟩
  rw [if_neg hb2]
  by_cases hb3 : z = .opponent ∧ m.opponent.isSome
  · rw [if_pos hb3]
    exact ⟨rfl, fun _ => ⟨rfl, rfl⟩⟩
  rw [if_neg hb3]
  obtain ⟨c, hc, hcid⟩ := findIdx?_spec hfind
  rw [hc]
  simp only [Option.getD_some]
  set card : Card := (if c.type = .T ∧ g.revealHidden = false then { c with isHidden := true } else c) with hcard
  set playerSpliced : PlayerState := { player with hand := player.hand.eraseIdx i } with hspliced
  set gS : Game := { g with players := fun q => if q = pid then some playerSpliced else g.players q } with hgS
  have hndS : gS.playerIds.Nodup := hnd
  have hiffS : ∀ q, (gS.players q).isSome ↔ q ∈ gS.playerIds := by
    intro q
    by_cases hq : q = pid
    · subst hq
      simp [hgS]
      exact hmem
    · simp [hgS, hq]
      exact hiff q
  have hmemS : pid ∈ gS.playerIds := hmem
  have hpsS : gS.players pid = some playerSpliced := by simp [hgS]
  have hdomS : playerSpliced.domain = player.domain := rfl
  have hoppS : z = .opponent → (gS.leftNeighborId pid).isSome := by
    intro _
    exact leftNeighborId_isSome gS pid hmemS hlen
  obtain ⟨gZ, hroute, hcnt, hct, hdk, hpids, hiffZ, hpkZ⟩ :=
    routePlay_spec w gS pid player playerSpliced m card z tp hndS hiffS hmemS hpsS
      hdomS hoppS
  rw [hroute]
  simp only []
  have hfin := finishPlay_spec w hw gZ pid card z tp (hpids ▸ hndS)
    (fun q hq => (hiffZ q).mp hq)
  have hwc : w card = w c := by
    rw [hcard]
    split
    · exact hw _ _ rfl
    · rfl
  have hdelta : countZones w gS + w c = countZones w g := by
    have h := countZones_setPlayer_delta w g pid player playerSpliced hp hmem hnd
    have herase : ((player.hand.eraseIdx i).map w).sum + w c = (player.hand.map w).sum :=
      sum_map_eraseIdx hc
    have hgSeq : gS = g.setPlayer pid playerSpliced := rfl
    rw [hgSeq]
    have hsp : (playerSpliced.hand.map w).sum = ((player.hand.eraseIdx i).map w).sum := rfl
    have hsd : (playerSpliced.domain.map w).sum = (player.domain.map w).sum := rfl
    omega
  refine ⟨?_, ?_⟩
  · rw [hfin.1, hcnt, hwc]
    exact hdelta
  · intro hps
    obtain ⟨hc1, hc2⟩ := hfin.2 hps
    refine ⟨?_, ?_⟩
    · rw [hc1, hct]
    · rw [hc2, hdk]

end PlayCardMaster

section KillMaster

open Game

/-- The three-plays-complete test the engine applies before auto-advancing. -/
def movesCompleteAt (g : Game) : Prop :=
  ((g.moves g.currentTurn).getD Moves.empty).banquet.isSome ∧
  ((g.moves g.currentTurn).getD Moves.empty).self.isSome ∧
  ((g.moves g.currentTurn).getD Moves.empty).opponent.isSome

instance (g : Game) : Decidable (movesCompleteAt g) := by
  unfold movesCompleteAt
  infer_instance

theorem finishKill_spec (w : Card → Nat) (hw : TypeWeight w) (gR : Game)
    (a actor : String) (killed : Card)
    (hnd : gR.playerIds.Nodup) (hsm : ∀ q, (gR.players q).isSome → q ∈ gR.playerIds) :
    (Game.finishKill gR a actor killed).1 = .ok () ∧
    countZones w (Game.finishKill gR a actor killed).2 = countZones w gR ∧
    (Game.finishKill gR a actor killed).2.pendingKill = none ∧
    (movesCompleteAt gR → (Game.finishKill gR a actor killed).2.currentTurn = nextSeat gR) ∧
    (¬movesCompleteAt gR →
      (Game.finishKill gR a actor killed).2.currentTurn = gR.currentTurn) := by
  rw [Game.finishKill]
  simp only []
  split
  · rename_i h
    refine ⟨rfl, ?_, ?_, ?_, ?_⟩
    · refine (countZones_endTurn w hw _ ?_ ?_).trans rfl
      · exact hnd
      · exact hsm
    · exact endTurn_pendingKill_none _ rfl
    · intro hcomp
      exact (endTurn_currentTurn _).trans rfl
    · intro hn
      exact absurd h hn
  · rename_i h
    refine ⟨rfl, rfl, rfl, ?_, fun _ => rfl⟩
    · intro hcomp
      exact absurd hcomp h

theorem removeFirstById_spec (w : Card → Nat) {l : List Card} {cid : String}
    {c : Card} {l' : List Card} (h : removeFirstById l cid = some (c, l')) :
    c ∈ l ∧ c.id = cid ∧ (l'.map w).sum + w c = (l.map w).sum := by
  rw [removeFirstById] at h
  cases hf : l.findIdx? (fun x => x.id = cid) with
  | none => rw [hf] at h; cases h
  | some i =>
      rw [hf] at h
      obtain ⟨c0, hc0, hpc⟩ := findIdx?_spec hf
      have h2 : (match l.get? i with
        | some cc => some (cc, l.eraseIdx i)
        | none => none) = some (c, l') := h
      rw [hc0] at h2
      have hinj : c0 = c ∧ l.eraseIdx i = l' := by
        simp at h2
        exact ⟨h2.1, h2.2⟩
      obtain ⟨rfl, rfl⟩ := hinj
      exact ⟨List.get?_mem hc0, by simpa using hpc, sum_map_eraseIdx hc0⟩

theorem pilesSumW_setC (w : Card → Nat) (t b : ByColor (List Card)) (col : CardColor)
    (l : List Card) :
    ((COLORS.map fun cc => (((t.setC col l).get cc).map w).sum + ((b.get cc).map w).sum).sum +
      ((t.get col).map w).sum =
      (COLORS.map fun cc => ((t.get cc).map w).sum + ((b.get cc).map w).sum).sum +
      (l.map w).sum) ∧
    ((COLORS.map fun cc => ((t.get cc).map w).sum + (((b.setC col l).get cc).map w).sum).sum +
      ((b.get col).map w).sum =
      (COLORS.map fun cc => ((t.get cc).map w).sum + ((b.get cc).map w).sum).sum +
      (l.map w).sum) := by
  constructor <;> cases col <;>
    simp [COLORS, ByColor.setC, ByColor.get] <;> omega

theorem removeFromBanquetAux_spec (w : Card → Nat) {cid : String} {c : Card}
    {t' b' : ByColor (List Card)} :
    ∀ (cl : List CardColor) (t b : ByColor (List Card)),
    removeFromBanquetAux t b cid cl = some (c, t', b') →
    c.id = cid ∧ (∃ col, c ∈ t.get col ∨ c ∈ b.get col) ∧
    (COLORS.map fun cc => ((t'.get cc).map w).sum + ((b'.get cc).map w).sum).sum + w c =
      (COLORS.map fun cc => ((t.get cc).map w).sum + ((b.get cc).map w).sum).sum := by
  intro cl
  induction cl with
  | nil => intro t b h; rw [removeFromBanquetAux] at h; cases h
  | cons color rest ih =>
      intro t b h
      rw [removeFromBanquetAux] at h
      cases hrt : removeFirstById (t.get color) cid with
      | some pr =>
          rw [hrt] at h
          obtain ⟨c1, l1⟩ := pr
          simp at h
          obtain ⟨rfl, rfl, rfl⟩ := h
          obtain ⟨hmem, hid, hsum⟩ := removeFirstById_spec w hrt
          refine ⟨hid, ⟨color, Or.inl hmem⟩, ?_⟩
          have := (pilesSumW_setC w t b color l1).1
          omega
      | none =>
          rw [hrt] at h
          cases hrb : removeFirstById (b.get color) cid with
          | some pr =>
              rw [hrb] at h
              obtain ⟨c1, l1⟩ := pr
              simp at h
              obtain ⟨rfl, rfl, rfl⟩ := h
              obtain ⟨hmem, hid, hsum⟩ := removeFirstById_spec w hrb
              refine ⟨hid, ⟨color, Or.inr hmem⟩, ?_⟩
              have := (pilesSumW_setC w t b color l1).2
              omega
          | none =>
              rw [hrb] at h
              obtain ⟨hid, ⟨col, hcol⟩, hsum⟩ := ih t b h
              exact ⟨hid, ⟨col, hcol⟩, hsum⟩

theorem resolveKill_spec (w : Card → Nat) (hw : TypeWeight w) (g : Game)
    (a : String) (d : Game.KillData)
    (hnd : g.playerIds.Nodup)
    (hiff : ∀ q, (g.players q).isSome ↔ q ∈ g.playerIds) :
    (∀ e, (g.resolveKill a d).1 = .error e → (g.resolveKill a d).2 = g) ∧
    ((g.resolveKill a d).1 = .ok () →
      ∃ pk c, g.pendingKill = some pk ∧
        countZones w (g.resolveKill a d).2 + w c = countZones w g ∧
        (g.resolveKill a d).2.pendingKill = none ∧
        (movesCompleteAt g → (g.resolveKill a d).2.currentTurn = nextSeat g) ∧
        ((∃ e ∈ g.hiddenBanquet, e.card = c) ∨
         (pk.area = .banquet ∧ c.id ∈ pk.candidateCardIds ∧
           (∃ col, c ∈ g.banquetTop.get col ∨ c ∈ g.banquetBottom.get col)) ∨
         (pk.area ≠ .banquet ∧ c.type ≠ .S))) := by
  rw [Game.resolveKill]
  cases hpk : g.pendingKill with
  | none => exact ⟨fun e he => rfl, fun h => Except.noConfusion h⟩
  | some pk =>
  simp only []
  by_cases ha : a ≠ pk.affectedPlayerId
  · rw [if_pos ha]
    exact ⟨fun e he => rfl, fun h => Except.noConfusion h⟩
  rw [if_neg ha]
  by_cases hnone : d.cardId = none ∧ d.hiddenSign = none
  · rw [if_pos hnone]
    exact ⟨fun e he => rfl, fun h => Except.noConfusion h⟩
  rw [if_neg hnone]
  cases hcid : d.cardId with
  | some cid =>
      simp only []
      by_cases hcand : cid ∉ pk.candidateCardIds
      · rw [if_pos hcand]
        exact ⟨fun e he => rfl, fun h => Except.noConfusion h⟩
      rw [if_neg hcand]
      push_neg at hcand
      by_cases harea : pk.area = .banquet
      · rw [if_pos harea]
        cases hrem : removeFromBanquetAux g.banquetTop g.banquetBottom cid COLORS with
        | none => exact ⟨fun e he => rfl, fun h => Except.noConfusion h⟩
        | some res =>
            obtain ⟨killed, t', b'⟩ := res
            simp only []
            obtain ⟨hid, ⟨col, hcol⟩, hsum⟩ := removeFromBanquetAux_spec w COLORS
              g.banquetTop g.banquetBottom hrem
            set gRem : Game := { g with banquetTop := t', banquetBottom := b', pendingKill := some pk } with hgRem
            have hfin := finishKill_spec w hw gRem a (g.displayName a) killed hnd
              (fun q hq => (hiff q).mp hq)
            refine ⟨fun e he => ?_, fun _ => ?_⟩
            · rw [hfin.1] at he
              cases he
            · refine ⟨pk, killed, rfl, ?_, hfin.2.2.1, ?_, ?_⟩
              · rw [hfin.2.1]
                have hrest : countZones w gRem + w killed = countZones w g := by
                  rw [countZones_eq, countZones_eq]
                  have h1 : gRem.deck = g.deck := rfl
                  have h2 : gRem.playerIds = g.playerIds := rfl
                  have h3 : gRem.players = g.players := rfl
                  have h4 : gRem.hiddenBanquet = g.hiddenBanquet := rfl
                  have h5 : gRem.banquetTop = t' := rfl
                  have h6 : gRem.banquetBottom = b' := rfl
                  rw [h1, h2, h3, h4, h5, h6]
                  omega
                exact hrest
              · intro hc
                exact (hfin.2.2.2.1 hc).trans rfl
              · exact Or.inr (Or.inl ⟨harea, hid ▸ hcand, col, hcol⟩)
      · rw [if_neg harea]
        set target : Option String := (if pk.area = .self_domain then some pk.affectedPlayerId
          else match pk.targetPlayerId with
            | some t => some t
            | none => match g.leftNeighborId pk.affectedPlayerId with
              | some t => some t
              | none => g.playerIds.find? (· ≠ pk.affectedPlayerId)) with htarget
        set domain : List Card := ((target.bind g.players).map (·.domain)).getD [] with hdomain
        cases hfi : domain.findIdx? (fun c => c.id = cid) with
        | none => exact ⟨fun e he => rfl, fun h => Except.noConfusion h⟩
        | some idx =>
            simp only []
            obtain ⟨c, hcg, hcp⟩ := findIdx?_spec hfi
            rw [hcg]
            simp only [Option.getD_some]
            by_cases hS : c.type = .S
            · rw [if_pos hS]
              exact ⟨fun e he => rfl, fun h => Except.noConfusion h⟩
            rw [if_neg hS]
            obtain ⟨t, p, hts, hps, hdeq⟩ : ∃ t p, target = some t ∧ g.players t = some p ∧
                domain = p.domain := by
              cases htt : target with
              | none =>
                  exfalso
                  rw [hdomain, htt] at hfi
                  simp at hfi
              | some t =>
                  cases hpt : g.players t with
                  | none =>
                      exfalso
                      rw [hdomain, htt] at hfi
                      simp [hpt] at hfi
                  | some p =>
                      exact ⟨t, p, rfl, hpt, by rw [hdomain, htt]; simp [hpt]⟩
            rw [hts]
            simp only []
            set gRem : Game := g.updPlayer t
              (fun pp => { pp with domain := pp.domain.eraseIdx idx }) with hgRem
            have htm : t ∈ g.playerIds := (hiff t).mp (by simp [hps])
            have hsm1 : ∀ q, (gRem.players q).isSome → q ∈ gRem.playerIds := by
              intro q hq
              by_cases hqt : q = t
              · subst hqt
                exact htm
              · apply (hiff q).mp
                simpa [hgRem, Game.updPlayer, hqt] using hq
            have hfin := finishKill_spec w hw gRem a (g.displayName a) c hnd hsm1
            refine ⟨fun e he => ?_, fun _ => ?_⟩
            · rw [hfin.1] at he
              cases he
            · refine ⟨pk, c, rfl, ?_, hfin.2.2.1, ?_, ?_⟩
              · rw [hfin.2.1]
                have hdel := countZones_updPlayer_delta w g t p
                  (fun pp => { pp with domain := pp.domain.eraseIdx idx }) hps htm hnd
                have her : ((p.domain.eraseIdx idx).map w).sum + w c = (p.domain.map w).sum := by
                  apply sum_map_eraseIdx
                  rw [← hdeq]
                  exact hcg
                have hdel2 : countZones w gRem + ((p.hand.map w).sum + (p.domain.map w).sum) =
                    countZones w g +
                      ((p.hand.map w).sum + ((p.domain.eraseIdx idx).map w).sum) := hdel
                omega
              · intro hc2
                exact (hfin.2.2.2.1 hc2).trans rfl
              · exact Or.inr (Or.inr ⟨harea, hS⟩)
  | none =>
      simp only []
      by_cases harea : pk.area = .banquet
      · rw [if_pos harea]
        cases hhs : d.hiddenSign with
        | none => exact ⟨fun e he => rfl, fun h => Except.noConfusion h⟩
        | some hs =>
            simp only []
            cases hfi : g.hiddenBanquet.findIdx? (·.sign = hs) with
            | none => exact ⟨fun e he => rfl, fun h => Except.noConfusion h⟩
            | some idx =>
                simp only []
                obtain ⟨e0, he0, hpe0⟩ := findIdx?_spec hfi
                have hhidden : countZones w ({ g with
                    hiddenBanquet := g.hiddenBanquet.eraseIdx idx,
                    pendingKill := none } : Game) + w e0.card = countZones w g := by
                  rw [countZones_eq, countZones_eq]
                  have her : ((g.hiddenBanquet.eraseIdx idx).map
                        (fun (e : HiddenEntry) => w e.card)).sum + w e0.card =
                      (g.hiddenBanquet.map (fun (e : HiddenEntry) => w e.card)).sum :=
                    @sum_map_eraseIdx HiddenEntry (fun e => w e.card) g.hiddenBanquet idx e0 he0
                  simp only []
                  omega
                split
                · refine ⟨fun e he => Except.noConfusion he, fun _ => ?_⟩
                  refine ⟨pk, e0.card, rfl, ?_,
                    endTurn_pendingKill_none _ rfl, ?_,
                    Or.inl ⟨e0, List.get?_mem he0, rfl⟩⟩
                  · refine Eq.trans (congrArg (fun x => x + w e0.card) ?_) hhidden
                    refine (countZones_endTurn w hw _ ?_ ?_).trans ?_
                    · exact hnd
                    · exact fun q hq => (hiff q).mp hq
                    · exact countZones_pushHistory w _ _
                  · intro hc
                    exact (endTurn_currentTurn _).trans rfl
                · rename_i hncomp
                  refine ⟨fun e he => Except.noConfusion he, fun _ => ?_⟩
                  refine ⟨pk, e0.card, rfl, ?_, rfl, ?_,
                    Or.inl ⟨e0, List.get?_mem he0, rfl⟩⟩
                  · exact Eq.trans (congrArg (· + w e0.card)
                      (countZones_pushHistory w _ _)) hhidden
                  · intro hc
                    exact absurd hc hncomp
      · rw [if_neg harea]
        exact ⟨fun e he => rfl, fun h => Except.noConfusion h⟩

/-- `cancelKill` analysed: errors leave the state unchanged; with no pending
kill it is a silent no-op; on success it preserves every card zone, clears the
pending kill, and advances the turn exactly when the suspended turn already had
all three move-categories satisfied. -/
theorem cancelKill_spec (w : Card → Nat) (hw : TypeWeight w) (g : Game) (a : String)
    (hnd : g.playerIds.Nodup)
    (hiff : ∀ q, (g.players q).isSome ↔ q ∈ g.playerIds) :
    (∀ e, (g.cancelKill a).1 = .error e → (g.cancelKill a).2 = g) ∧
    (g.pendingKill = none → g.cancelKill a = (.ok (), g)) ∧
    ((g.cancelKill a).1 = .ok () → g.pendingKill.isSome →
      countZones w (g.cancelKill a).2 = countZones w g ∧
      (g.cancelKill a).2.pendingKill = none ∧
      (movesCompleteAt g → (g.cancelKill a).2.currentTurn = nextSeat g) ∧
      (¬movesCompleteAt g → (g.cancelKill a).2.currentTurn = g.currentTurn)) := by
  rw [Game.cancelKill]
  cases hpk : g.pendingKill with
  | none =>
      refine ⟨fun e he => Except.noConfusion he, fun _ => rfl, fun _ hs => ?_⟩
      simp at hs
  | some pk =>
      simp only []
      by_cases ha : a ≠ pk.affectedPlayerId
      · rw [if_pos ha]
        refine ⟨fun e he => rfl, fun h0 => Option.noConfusion h0,
          fun h => Except.noConfusion h⟩
      · rw [if_neg ha]
        split
        · rename_i hcomp
          refine ⟨fun e he => Except.noConfusion he, fun h0 => Option.noConfusion h0,
            fun _ _ => ⟨?_, ?_, ?_, ?_⟩⟩
          · refine (countZones_endTurn w hw _ ?_ ?_).trans ?_
            · exact hnd
            · exact fun q hq => (hiff q).mp hq
            · exact (countZones_pushHistory w _ _).trans rfl
          · exact endTurn_pendingKill_none _ rfl
          · intro _
            exact (endTurn_currentTurn _).trans rfl
          · intro hnm
            exact absurd hcomp hnm
        · rename_i hncomp
          refine ⟨fun e he => Except.noConfusion he, fun h0 => Option.noConfusion h0,
            fun _ _ => ⟨?_, rfl, ?_, ?_⟩⟩
          · exact (countZones_pushHistory w _ _).trans rfl
          · intro hm
            exact absurd hm hncomp
          · intro _
            exact rfl

end KillMaster

end Counting

section ExampleStates

/-- A `Math.random` outcome that always picks index 0. -/
def rand0 : Nat → Nat := fun _ => 0

def killerW : Card := ⟨"W-K-0", .W, .K, "p1", "WK.png", false⟩

def spyR : Card := ⟨"R-T-0", .R, .T, "p2", "RT.png", true⟩

def spyB : Card := ⟨"B-T-0", .B, .T, "p2", "BT.png", true⟩

/-- A started two-player session: `p1` to move holding one killer, the other
player's domain holding one (parameterisable) hidden spy card. -/
def tState (spy : Card) : Game :=
  { deck := []
    players := fun q =>
      if q = "p1" then some ⟨"p1", none, [killerW], []⟩
      else if q = "p2" then some ⟨"p2", none, [], [spy]⟩
      else none
    objectives := fun _ => none
    banquetTop := emptyPiles
    banquetBottom := emptyPiles
    hiddenBanquet := []
    currentTurn := "p1"
    playerIds := ["p1", "p2"]
    started := true
    revealHidden := false
    historySeq := 0
    history := []
    moves := fun q => if q = "p1" ∨ q = "p2" then some Moves.empty else none
    pendingKill := none
    objectiveResults := none
    maxPlayers := 2
    deckMultiplier := 1
    deckOptions := none }

/-- Deck options that produce a single white killer card. -/
def tinyOpts : GameOptions :=
  { maxPlayers := none
    deckMultiplier := none
    deckOptions := some
      { enabledColors := some (fun c => if c = .W then some true else some false)
        perColorTypeCounts := some (fun t => if t = .K then some 1 else some 0) } }

def gTiny : Game :=
  (((Game.new (some tinyOpts) rand0).addPlayer "p1" none).2.addPlayer "p2" none).2

def gTinyStarted : Game := gTiny.startGame rand0 rand0 rand0

/-- Default-configuration two-player session (deckMultiplier 1, no overrides). -/
def gDefault : Game :=
  (((Game.new (some { maxPlayers := none, deckMultiplier := some 1, deckOptions := none })
    rand0).addPlayer "p1" none).2.addPlayer "p2" none).2

end ExampleStates

/-- Weight that counts exactly the shield-type cards of a zone. -/
def shieldW : Card → Nat := fun c => if c.type = .S then 1 else 0

theorem shieldW_typeWeight : TypeWeight shieldW := by
  intro c1 c2 h
  simp [shieldW, h]

/-- A card of the optional-target domain list used by `queueKill` and
`resolveKill` lies in some present player's domain. -/
theorem mem_optDomain {o : Option String} {g : Game} {c : Card}
    (hc : c ∈ ((o.bind g.players).map (fun x => x.domain)).getD []) :
    ∃ q p, g.players q = some p ∧ c ∈ p.domain := by
  cases o with
  | none => simp at hc
  | some q =>
      simp only [Option.some_bind] at hc
      cases hp : g.players q with
      | none =>
          rw [hp] at hc
          simp at hc
      | some p =>
          rw [hp] at hc
          exact ⟨q, p, hp, by simpa using hc⟩

/-- C10: calling `cancelKill` with no pending kill succeeds for any caller and
leaves the session unchanged, whereas `resolveKill` in the same situation
raises the `No pending kill` error (also without touching the state). -/
theorem C10_cancelKill_noop_without_pending (g : Game) (pid : String)
    (h : g.pendingKill = none) :
    g.cancelKill pid = (.ok (), g) ∧
    ∀ d : Game.KillData, g.resolveKill pid d = (.error "No pending kill", g) := by
  refine ⟨?_, fun d => ?_⟩
  · simp [Game.cancelKill, h]
  · simp [Game.resolveKill, h]

theorem C10_witness :
    (tState spyR).cancelKill "someone else" = (.ok (), tState spyR) ∧
    ∀ d : Game.KillData, (tState spyR).resolveKill "someone else" d =
      (.error "No pending kill", tState spyR) :=
  C10_cancelKill_noop_without_pending (tState spyR) "someone else" rfl

/-- C5: `playCard` fails with a distinct error for each precondition — game
not started, caller not the turn-holder, card not in the caller's hand, and
requested move-category (banquet shared by both banquet sub-zones, self,
opponent) already satisfied this turn — and every such failure returns the
state entirely unchanged. -/
theorem C5_playCard_failures (g : Game) (pid cid : String) (z : PlayZone)
    (tp : Option String) :
    (g.started = false → g.playCard pid cid z tp = (.error "Game has not started yet", g)) ∧
    (g.started = true → pid ≠ g.currentTurn →
      g.playCard pid cid z tp = (.error "Not your turn", g)) ∧
    (∀ p, g.started = true → pid = g.currentTurn → g.players pid = some p →
      (∀ c ∈ p.hand, c.id ≠ cid) →
      g.playCard pid cid z tp = (.error "Card not in hand", g)) ∧
    (∀ p m, g.started = true → pid = g.currentTurn → g.players pid = some p →
      (∃ c ∈ p.hand, c.id = cid) → g.moves pid = some m →
      ((z = .banquet_top ∨ z = .banquet_bottom) → m.banquet.isSome →
        g.playCard pid cid z tp = (.error "Already played to banquet", g)) ∧
      (z = .self → m.self.isSome →
        g.playCard pid cid z tp = (.error "Already played to self", g)) ∧
      (z = .opponent → m.opponent.isSome →
        g.playCard pid cid z tp = (.error "Already played to opponent", g))) := by
  refine ⟨?_, ?_, ?_, ?_⟩
  · intro h
    simp [Game.playCard, h]
  · intro h1 h2
    simp [Game.playCard, h1, h2]
  · intro p h1 h2 hp hnone
    subst h2
    have hfind : p.hand.findIdx? (fun c => c.id = cid) = none := by
      rw [List.findIdx?_eq_none_iff]
      intro c hc
      simp [hnone c hc]
    simp [Game.playCard, h1, hp, hfind]
  · intro p m h1 h2 hp hmem hm
    subst h2
    obtain ⟨c, hc, hcid⟩ := hmem
    have hfind : (p.hand.findIdx? (fun c => c.id = cid)).isSome := by
      rw [List.findIdx?_isSome]
      exact List.any_eq_true.mpr ⟨c, hc, by simp [hcid]⟩
    obtain ⟨i, hi⟩ := Option.isSome_iff_exists.mp hfind
    refine ⟨?_, ?_, ?_⟩
    · intro hz hb
      rcases hz with rfl | rfl <;> simp [Game.playCard, h1, hp, hi, hm, hb]
    · intro hz hb
      subst hz
      simp [Game.playCard, h1, hp, hi, hm, hb]
    · intro hz hb
      subst hz
      simp [Game.playCard, h1, hp, hi, hm, hb]

theorem C5_witness :
    ((tState spyR).playCard "p2" "x" .self none = (.error "Not your turn", tState spyR)) ∧
    ((tState spyR).playCard "p1" "nope" .self none =
      (.error "Card not in hand", tState spyR)) ∧
    ((tState spyR).removePlayer "p2").playCard "p1" "W-K-0" .self none =
      (.error "Game has not started yet", (tState spyR).removePlayer "p2") := by
  refine ⟨?_, ?_, ?_⟩
  · exact (C5_playCard_failures (tState spyR) "p2" "x" .self none).2.1 rfl (by decide)
  · exact (C5_playCard_failures (tState spyR) "p1" "nope" .self none).2.2.1
      ⟨"p1", none, [killerW], []⟩ rfl rfl rfl (by decide)
  · exact (C5_playCard_failures ((tState spyR).removePlayer "p2") "p1" "W-K-0" .self
      none).1 (by rfl)

/-- The hand-built two-player session `tState` is well-formed, whatever the
spy card placed in the second player's domain. -/
theorem WF_tState (spy : Card) : Game.WF (tState spy) := by
  refine ⟨(by decide : List.Nodup ["p1", "p2"]), fun pid => ?_, fun pid h => ?_,
    fun _ => ⟨(by decide : ("p1" : String) ∈ ["p1", "p2"]), (by decide : 2 ≤ 2)⟩⟩
  · by_cases h1 : pid = "p1"
    · subst h1
      simp [tState]
    · by_cases h2 : pid = "p2"
      · subst h2
        simp [tState]
      · simp [tState, h1, h2]
  · by_cases h1 : pid = "p1"
    · subst h1
      exact (by decide : ("p1" : String) ∈ ["p1", "p2"])
    · by_cases h2 : pid = "p2"
      · subst h2
        exact (by decide : ("p2" : String) ∈ ["p1", "p2"])
      · simp [tState, h1, h2] at h

/-- C3: while a kill is pending no operation advances the turn — after any
`playCard` that leaves a kill pending the turn holder is unchanged, even when
all three move-categories are satisfied — and any `resolveKill` or
`cancelKill` that succeeds (clearing the pending kill) at a moment when the
current turn already has its banquet, self and opponent categories satisfied
advances the turn within that same operation. -/
theorem C3_pending_kill_suspends_turn (g : Game) (pid cid : String) (z : PlayZone)
    (tp : Option String) (a : String) (d : Game.KillData) (hWF : Game.WF g) :
    ((g.playCard pid cid z tp).2.pendingKill.isSome →
      (g.playCard pid cid z tp).2.currentTurn = g.currentTurn) ∧
    ((g.resolveKill a d).1 = .ok () →
      (g.resolveKill a d).2.pendingKill = none ∧
      (movesCompleteAt g → (g.resolveKill a d).2.currentTurn = Game.nextSeat g)) ∧
    (g.pendingKill.isSome → (g.cancelKill a).1 = .ok () →
      (g.cancelKill a).2.pendingKill = none ∧
      (movesCompleteAt g → (g.cancelKill a).2.currentTurn = Game.nextSeat g)) := by
  obtain ⟨hnd, hiff, hmv, hst⟩ := hWF
  refine ⟨?_, ?_, ?_⟩
  · intro hp
    exact ((playCard_master (fun _ => 0) (fun c1 c2 _ => rfl) g pid cid z tp
      ⟨hnd, hiff, hmv, hst⟩).2 hp).1
  · intro hok
    obtain ⟨pk, c, hpk, hcz, hpn, hturn, hprov⟩ :=
      (resolveKill_spec (fun _ => 0) (fun c1 c2 _ => rfl) g a d hnd hiff).2 hok
    exact ⟨hpn, hturn⟩
  · intro hs hok
    obtain ⟨hcz, hpn, hadv, hstay⟩ :=
      (cancelKill_spec (fun _ => 0) (fun c1 c2 _ => rfl) g a hnd hiff).2.2 hok hs
    exact ⟨hpn, fun hm => hadv hm⟩

theorem C3_witness :
    Game.WF (tState spyR) ∧
    ((((tState spyR).playCard "p1" "W-K-0" .opponent (some "p2")).2.pendingKill.isSome →
      ((tState spyR).playCard "p1" "W-K-0" .opponent (some "p2")).2.currentTurn =
        (tState spyR).currentTurn) ∧
    (((tState spyR).resolveKill "p2" ⟨some "R-T-0", none⟩).1 = .ok () →
      ((tState spyR).resolveKill "p2" ⟨some "R-T-0", none⟩).2.pendingKill = none ∧
      (movesCompleteAt (tState spyR) →
        ((tState spyR).resolveKill "p2" ⟨some "R-T-0", none⟩).2.currentTurn =
          Game.nextSeat (tState spyR))) ∧
    ((tState spyR).pendingKill.isSome → ((tState spyR).cancelKill "p2").1 = .ok () →
      ((tState spyR).cancelKill "p2").2.pendingKill = none ∧
      (movesCompleteAt (tState spyR) →
        ((tState spyR).cancelKill "p2").2.currentTurn = Game.nextSeat (tState spyR)))) :=
  ⟨WF_tState spyR, C3_pending_kill_suspends_turn (tState spyR) "p1" "W-K-0" .opponent
    (some "p2") "p2" ⟨some "R-T-0", none⟩ (WF_tState spyR)⟩

/-- C9: `resolveKill` fails — leaving the state unchanged — when no kill is
pending, when the actor is not the pending kill's affected player, when
neither a card id nor a hidden sign is supplied, and when a supplied card id
is outside the candidate set; every candidate id recorded by `queueKill` is
the id of a non-shield card of the zone it was computed from; and no
successful `resolveKill` changes the number of shield cards in play. -/
theorem C9_resolveKill_guards_and_shields (g : Game) (a : String) (d : Game.KillData)
    (pb : String) (z : PlayZone) (t : Option String)
    (hnd : g.playerIds.Nodup)
    (hiff : ∀ q, (g.players q).isSome ↔ q ∈ g.playerIds)
    (hhid : ∀ e ∈ g.hiddenBanquet, e.card.type ≠ .S)
    (hbq : ∀ pk, g.pendingKill = some pk → pk.area = .banquet →
      ∀ c : Card, ∀ col, (c ∈ g.banquetTop.get col ∨ c ∈ g.banquetBottom.get col) →
        c.id ∈ pk.candidateCardIds → c.type ≠ .S) :
    (g.pendingKill = none → g.resolveKill a d = (.error "No pending kill", g)) ∧
    (∀ pk, g.pendingKill = some pk → a ≠ pk.affectedPlayerId →
      g.resolveKill a d = (.error "Not your decision", g)) ∧
    (∀ pk, g.pendingKill = some pk → a = pk.affectedPlayerId →
      d.cardId = none → d.hiddenSign = none →
      g.resolveKill a d = (.error "No kill target provided", g)) ∧
    (∀ pk cid, g.pendingKill = some pk → a = pk.affectedPlayerId →
      d.cardId = some cid → cid ∉ pk.candidateCardIds →
      g.resolveKill a d = (.error "Invalid kill target", g)) ∧
    (∀ pk, (g.queueKill pb z t).pendingKill = some pk →
      ∀ cid ∈ pk.candidateCardIds, ∃ c : Card, c.id = cid ∧ c.type ≠ .S ∧
        ((∃ col, c ∈ g.banquetTop.get col ∨ c ∈ g.banquetBottom.get col) ∨
         (∃ q p, g.players q = some p ∧ c ∈ p.domain))) ∧
    ((g.resolveKill a d).1 = .ok () →
      countZones shieldW (g.resolveKill a d).2 = countZones shieldW g) := by
  refine ⟨?_, ?_, ?_, ?_, ?_, ?_⟩
  · intro h
    rw [Game.resolveKill, h]
  · intro pk hpk hne
    rw [Game.resolveKill, hpk]
    simp only []
    rw [if_pos hne]
  · intro pk hpk ha hcid hhs
    rw [Game.resolveKill, hpk]
    simp only []
    rw [if_neg (not_not_intro ha), if_pos ⟨hcid, hhs⟩]
  · intro pk cid hpk ha hcid hnotin
    rw [Game.resolveKill, hpk]
    simp only []
    rw [if_neg (not_not_intro ha)]
    rw [if_neg (fun hc => by rw [hcid] at hc; exact Option.noConfusion hc.1)]
    rw [hcid]
    simp only []
    rw [if_pos hnotin]
  · intro pk hpk cid hcid
    rw [Game.queueKill.eq_def] at hpk
    simp only [] at hpk
    injection hpk with hpk
    subst hpk
    cases z with
    | banquet_top =>
        simp only [reduceIte] at hcid
        simp only [List.mem_flatMap, List.mem_append, List.mem_map,
          List.mem_filter] at hcid
        obtain ⟨col, hcol, hcid⟩ := hcid
        cases hcid with
        | inl h =>
            obtain ⟨c, ⟨hc, hS⟩, hid⟩ := h
            exact ⟨c, hid, by simpa using hS, Or.inl ⟨col, Or.inl hc⟩⟩
        | inr h =>
            obtain ⟨c, ⟨hc, hS⟩, hid⟩ := h
            exact ⟨c, hid, by simpa using hS, Or.inl ⟨col, Or.inr hc⟩⟩
    | banquet_bottom =>
        simp only [reduceIte] at hcid
        simp only [List.mem_flatMap, List.mem_append, List.mem_map,
          List.mem_filter] at hcid
        obtain ⟨col, hcol, hcid⟩ := hcid
        cases hcid with
        | inl h =>
            obtain ⟨c, ⟨hc, hS⟩, hid⟩ := h
            exact ⟨c, hid, by simpa using hS, Or.inl ⟨col, Or.inl hc⟩⟩
        | inr h =>
            obtain ⟨c, ⟨hc, hS⟩, hid⟩ := h
            exact ⟨c, hid, by simpa using hS, Or.inl ⟨col, Or.inr hc⟩⟩
    | self =>
        rw [if_neg (by decide)] at hcid
        simp only [List.mem_map, List.mem_filter] at hcid
        obtain ⟨c, ⟨hc, hS⟩, hid⟩ := hcid
        exact ⟨c, hid, by simpa using hS, Or.inr (mem_optDomain hc)⟩
    | opponent =>
        rw [if_neg (by decide)] at hcid
        simp only [List.mem_map, List.mem_filter] at hcid
        obtain ⟨c, ⟨hc, hS⟩, hid⟩ := hcid
        exact ⟨c, hid, by simpa using hS, Or.inr (mem_optDomain hc)⟩
  · intro hok
    obtain ⟨pk, c, hpk, hcz, hpn, hturn, hprov⟩ :=
      (resolveKill_spec shieldW shieldW_typeWeight g a d hnd hiff).2 hok
    have hzero : shieldW c = 0 := by
      cases hprov with
      | inl h =>
          obtain ⟨e, he, hec⟩ := h
          have := hhid e he
          rw [hec] at this
          simp [shieldW, this]
      | inr h =>
          cases h with
          | inl h =>
              obtain ⟨harea, hcands, col, hcol⟩ := h
              have := hbq pk hpk harea c col hcol hcands
              simp [shieldW, this]
          | inr h =>
              simp [shieldW, h.2]
    omega

theorem C9_witness :
    (tState spyR).playerIds.Nodup ∧
    (∀ q, ((tState spyR).players q).isSome ↔ q ∈ (tState spyR).playerIds) ∧
    (∀ e ∈ (tState spyR).hiddenBanquet, e.card.type ≠ .S) ∧
    (∀ pk, (tState spyR).pendingKill = some pk → pk.area = .banquet →
      ∀ c : Card, ∀ col,
        (c ∈ (tState spyR).banquetTop.get col ∨ c ∈ (tState spyR).banquetBottom.get col) →
        c.id ∈ pk.candidateCardIds → c.type ≠ .S) ∧
    (((tState spyR).pendingKill = none →
      (tState spyR).resolveKill "p2" ⟨some "R-T-0", none⟩ =
        (.error "No pending kill", tState spyR)) ∧
    (∀ pk, (tState spyR).pendingKill = some pk → "p2" ≠ pk.affectedPlayerId →
      (tState spyR).resolveKill "p2" ⟨some "R-T-0", none⟩ =
        (.error "Not your decision", tState spyR)) ∧
    (∀ pk, (tState spyR).pendingKill = some pk → "p2" = pk.affectedPlayerId →
      (⟨some "R-T-0", none⟩ : Game.KillData).cardId = none →
      (⟨some "R-T-0", none⟩ : Game.KillData).hiddenSign = none →
      (tState spyR).resolveKill "p2" ⟨some "R-T-0", none⟩ =
        (.error "No kill target provided", tState spyR)) ∧
    (∀ pk cid, (tState spyR).pendingKill = some pk → "p2" = pk.affectedPlayerId →
      (⟨some "R-T-0", none⟩ : Game.KillData).cardId = some cid →
      cid ∉ pk.candidateCardIds →
      (tState spyR).resolveKill "p2" ⟨some "R-T-0", none⟩ =
        (.error "Invalid kill target", tState spyR)) ∧
    (∀ pk, ((tState spyR).queueKill "p1" .opponent (some "p2")).pendingKill = some pk →
      ∀ cid ∈ pk.candidateCardIds, ∃ c : Card, c.id = cid ∧ c.type ≠ .S ∧
        ((∃ col, c ∈ (tState spyR).banquetTop.get col ∨
            c ∈ (tState spyR).banquetBottom.get col) ∨
         (∃ q p, (tState spyR).players q = some p ∧ c ∈ p.domain))) ∧
    (((tState spyR).resolveKill "p2" ⟨some "R-T-0", none⟩).1 = .ok () →
      countZones shieldW ((tState spyR).resolveKill "p2" ⟨some "R-T-0", none⟩).2 =
        countZones shieldW (tState spyR))) :=
  ⟨by decide, (WF_tState spyR).2.1, fun e he => absurd he (List.not_mem_nil e),
    fun pk hpk => Option.noConfusion hpk,
    C9_resolveKill_guards_and_shields (tState spyR) "p2" ⟨some "R-T-0", none⟩
      "p1" .opponent (some "p2") (by decide) (WF_tState spyR).2.1
      (fun e he => absurd he (List.not_mem_nil e))
      (fun pk hpk => Option.noConfusion hpk)⟩

/-- C1 (amended): per-operation card accounting — `playCard`, `endTurn` and
`cancelKill` preserve the total number of cards across deck, hands, domains,
banquet piles and the hidden-banquet list; a failing `resolveKill` leaves the
state (hence the total) unchanged; but a successful `resolveKill` destroys
exactly one card, leaving the new total one below the old. The spec's claim
that the total always equals the generated deck size is therefore false once
any kill resolves against a card. -/
theorem C1_card_conservation_per_operation (g : Game) (pid cid : String)
    (z : PlayZone) (tp : Option String) (a : String) (d : Game.KillData)
    (hWF : Game.WF g) :
    Game.totalCards (g.playCard pid cid z tp).2 = Game.totalCards g ∧
    Game.totalCards g.endTurn = Game.totalCards g ∧
    Game.totalCards (g.cancelKill a).2 = Game.totalCards g ∧
    (∀ e, (g.resolveKill a d).1 = .error e → (g.resolveKill a d).2 = g) ∧
    ((g.resolveKill a d).1 = .ok () →
      Game.totalCards (g.resolveKill a d).2 + 1 = Game.totalCards g) := by
  obtain ⟨hnd, hiff, hmv, hst⟩ := hWF
  refine ⟨?_, ?_, ?_, ?_, ?_⟩
  · rw [totalCards_eq_countZones, totalCards_eq_countZones]
    exact (playCard_master (fun _ => 1) (fun c1 c2 h => rfl) g pid cid z tp
      ⟨hnd, hiff, hmv, hst⟩).1
  · rw [totalCards_eq_countZones, totalCards_eq_countZones]
    exact countZones_endTurn (fun _ => 1) (fun c1 c2 h => rfl) g hnd
      (fun q hq => (hiff q).mp hq)
  · cases hr : (g.cancelKill a).1 with
    | error e =>
        rw [(cancelKill_spec (fun _ => 1) (fun c1 c2 h => rfl) g a hnd hiff).1 e hr]
    | ok u =>
        cases u
        cases hpk : g.pendingKill with
        | none =>
            rw [(cancelKill_spec (fun _ => 1) (fun c1 c2 h => rfl) g a hnd hiff).2.1 hpk]
        | some pk =>
            have h3 := (cancelKill_spec (fun _ => 1) (fun c1 c2 h => rfl) g a
              hnd hiff).2.2 hr (by rw [hpk]; rfl)
            rw [totalCards_eq_countZones, totalCards_eq_countZones]
            exact h3.1
  · exact (resolveKill_spec (fun _ => 1) (fun c1 c2 h => rfl) g a d hnd hiff).1
  · intro hok
    obtain ⟨pk, c, hpk, hcz, hrest⟩ :=
      (resolveKill_spec (fun _ => 1) (fun c1 c2 h => rfl) g a d hnd hiff).2 hok
    rw [totalCards_eq_countZones, totalCards_eq_countZones]
    exact hcz

theorem C1_witness :
    Game.WF (tState spyR) ∧
    (Game.totalCards ((tState spyR).playCard "p1" "W-K-0" .opponent (some "p2")).2 =
      Game.totalCards (tState spyR) ∧
    Game.totalCards (tState spyR).endTurn = Game.totalCards (tState spyR) ∧
    Game.totalCards ((tState spyR).cancelKill "p2").2 = Game.totalCards (tState spyR) ∧
    (∀ e, ((tState spyR).resolveKill "p2" ⟨some "R-T-0", none⟩).1 = .error e →
      ((tState spyR).resolveKill "p2" ⟨some "R-T-0", none⟩).2 = tState spyR) ∧
    (((tState spyR).resolveKill "p2" ⟨some "R-T-0", none⟩).1 = .ok () →
      Game.totalCards ((tState spyR).resolveKill "p2" ⟨some "R-T-0", none⟩).2 + 1 =
        Game.totalCards (tState spyR))) :=
  ⟨WF_tState spyR, C1_card_conservation_per_operation (tState spyR) "p1" "W-K-0"
    .opponent (some "p2") "p2" ⟨some "R-T-0", none⟩ (WF_tState spyR)⟩

theorem C1_counterexample :
    Game.totalCards gTinyStarted = 1 ∧
    (gTinyStarted.playCard "p1" "W-K-0" .opponent (some "p2")).1 = .ok () ∧
    ((gTinyStarted.playCard "p1" "W-K-0" .opponent (some "p2")).2.resolveKill "p1"
        ⟨some "W-K-0", none⟩).1 = .ok () ∧
    Game.totalCards ((gTinyStarted.playCard "p1" "W-K-0" .opponent
        (some "p2")).2.resolveKill "p1" ⟨some "W-K-0", none⟩).2 = 0 :=
  ⟨rfl, rfl, rfl, rfl⟩

/-- A pending kill and an objective assignment used to probe `removePlayer`. -/
def tPk : PendingKill := ⟨"p1", .opponent_domain, some "p2", ["R-T-0"], none, none⟩

def tObj : Objective := ⟨"obj1", "grace", "t", "d", none⟩

def tAssign : ObjectiveAssignment := ⟨tObj, tObj⟩

def tStateKill : Game :=
  { tState spyR with
    pendingKill := some tPk
    objectives := fun q => if q = "p1" then some tAssign else none }

/-- C4 (amended): `removePlayer` on a present participant drops the seat and
force-resets the session — unstarted, empty deck and history, every remaining
player's hand and domain emptied and their move records cleared — but it does
NOT clear the pending kill, the objective assignments, or the hidden-banquet
list: those survive into the supposedly clean joinable state. -/
theorem C4_removePlayer_reset (g : Game) (id : String)
    (hnd : g.playerIds.Nodup)
    (hiff : ∀ q, (g.players q).isSome ↔ q ∈ g.playerIds)
    (hmem : id ∈ g.playerIds) :
    (g.removePlayer id).playerIds = g.playerIds.erase id ∧
    (g.removePlayer id).started = false ∧
    (g.removePlayer id).currentTurn = "" ∧
    (g.removePlayer id).deck = [] ∧
    (g.removePlayer id).history = [] ∧
    (g.removePlayer id).players id = none ∧
    (g.removePlayer id).moves id = none ∧
    (∀ q p, (g.removePlayer id).players q = some p → p.hand = [] ∧ p.domain = []) ∧
    (∀ q, q ∈ g.playerIds.erase id → (g.removePlayer id).moves q = some Moves.empty) ∧
    (g.removePlayer id).pendingKill = g.pendingKill ∧
    (g.removePlayer id).objectives = g.objectives ∧
    (g.removePlayer id).hiddenBanquet = g.hiddenBanquet := by
  have hni : id ∉ g.playerIds.erase id := hnd.not_mem_erase
  refine ⟨?_, ?_, ?_, ?_, ?_, ?_, ?_, ?_, ?_, ?_, ?_, ?_⟩
  · simp [Game.removePlayer, hmem]
  · simp [Game.removePlayer, hmem]
  · simp [Game.removePlayer, hmem]
  · simp [Game.removePlayer, hmem]
  · simp [Game.removePlayer, hmem]
  · simp [Game.removePlayer, hmem, hni]
  · simp [Game.removePlayer, hmem, hni]
  · intro q p hq
    rw [Game.removePlayer, if_pos hmem] at hq
    simp only [] at hq
    by_cases hqn : q ∈ g.playerIds.erase id
    · rw [if_pos hqn] at hq
      obtain ⟨p0, hp0, hp⟩ := Option.map_eq_some'.mp hq
      rw [← hp]
      exact ⟨rfl, rfl⟩
    · rw [if_neg hqn] at hq
      by_cases hqi : q = id
      · subst hqi
        rw [if_pos rfl] at hq
        cases hq
      · rw [if_neg hqi] at hq
        have hqm : q ∈ g.playerIds := (hiff q).mp (by rw [hq]; rfl)
        exact absurd ((List.mem_erase_of_ne hqi).mpr hqm) hqn
  · intro q hq
    rw [Game.removePlayer, if_pos hmem]
    simp only []
    rw [if_pos hq]
  · simp [Game.removePlayer, hmem]
  · simp [Game.removePlayer, hmem]
  · simp [Game.removePlayer, hmem]

theorem C4_witness :
    (tStateKill.playerIds.Nodup ∧
     (∀ q, (tStateKill.players q).isSome ↔ q ∈ tStateKill.playerIds) ∧
     "p2" ∈ tStateKill.playerIds) ∧
    ((tStateKill.removePlayer "p2").playerIds = tStateKill.playerIds.erase "p2" ∧
    (tStateKill.removePlayer "p2").started = false ∧
    (tStateKill.removePlayer "p2").currentTurn = "" ∧
    (tStateKill.removePlayer "p2").deck = [] ∧
    (tStateKill.removePlayer "p2").history = [] ∧
    (tStateKill.removePlayer "p2").players "p2" = none ∧
    (tStateKill.removePlayer "p2").moves "p2" = none ∧
    (∀ q p, (tStateKill.removePlayer "p2").players q = some p →
      p.hand = [] ∧ p.domain = []) ∧
    (∀ q, q ∈ tStateKill.playerIds.erase "p2" →
      (tStateKill.removePlayer "p2").moves q = some Moves.empty) ∧
    (tStateKill.removePlayer "p2").pendingKill = tStateKill.pendingKill ∧
    (tStateKill.removePlayer "p2").objectives = tStateKill.objectives ∧
    (tStateKill.removePlayer "p2").hiddenBanquet = tStateKill.hiddenBanquet) :=
  ⟨⟨by decide, (WF_tState spyR).2.1, by decide⟩,
    C4_removePlayer_reset tStateKill "p2" (by decide) (WF_tState spyR).2.1 (by decide)⟩

theorem C4_counterexample :
    tStateKill.started = true ∧
    "p2" ∈ tStateKill.playerIds ∧
    (tStateKill.removePlayer "p2").started = false ∧
    (tStateKill.removePlayer "p2").pendingKill = some tPk ∧
    (tStateKill.removePlayer "p2").objectives "p1" = some tAssign :=
  ⟨rfl, by decide, rfl, rfl, rfl⟩

theorem listSwap_length (l : List α) (i j : Nat) : (listSwap l i j).length = l.length := by
  rw [listSwap]
  cases l.get? i <;> cases l.get? j <;> simp

theorem fisherYatesAux_length (rand : Nat → Nat) : ∀ (i : Nat) (l : List α),
    (fisherYatesAux rand l i).length = l.length := by
  intro i
  induction i with
  | zero => intro l; rfl
  | succ n ih =>
      intro l
      rw [fisherYatesAux]
      rw [ih]
      exact listSwap_length l (n + 1) (rand (n + 1) % (n + 2))

theorem fisherYates_length (rand : Nat → Nat) (l : List α) :
    (fisherYates rand l).length = l.length :=
  fisherYatesAux_length rand (l.length - 1) l

theorem drawCards_spec (pid : String) : ∀ (n : Nat) (g : Game) (p : PlayerState),
    g.players pid = some p → n ≤ g.deck.length →
    (∃ p2, (g.drawCards pid n).players pid = some p2 ∧
      p2.hand.length = p.hand.length + n ∧ p2.domain = p.domain) ∧
    (g.drawCards pid n).deck.length = g.deck.length - n ∧
    (∀ q, q ≠ pid → (g.drawCards pid n).players q = g.players q) := by
  intro n
  induction n with
  | zero =>
      intro g p hp _
      exact ⟨⟨p, hp, rfl, rfl⟩, rfl, fun q hq => rfl⟩
  | succ n ih =>
      intro g p hp hle
      simp only [Game.drawCards]
      rw [hp]
      simp only []
      cases hL : g.deck.getLast? with
      | none =>
          exfalso
          have : g.deck = [] := List.getLast?_eq_none_iff.mp hL
          rw [this] at hle
          simp at hle
      | some card =>
          simp only []
          obtain ⟨⟨p2, hp2, hln, hdom⟩, hdeck, hfr⟩ := ih
            { g with deck := g.deck.dropLast, players := fun q => if q = pid then some { p with hand := p.hand ++ [{ card with ownerId := pid }] } else g.players q }
            { p with hand := p.hand ++ [{ card with ownerId := pid }] }
            (by simp)
            (by simp only [List.length_dropLast]
                have := List.length_pos.mpr (List.getLast?_isSome.mp (by rw [hL]; rfl) : g.deck ≠ [])
                omega)
          refine ⟨⟨p2, hp2, ?_, hdom⟩, ?_, ?_⟩
          · rw [hln]
            simp only [List.length_append, List.length_singleton]
            omega
          · rw [hdeck]
            simp only [List.length_dropLast]
            have : g.deck ≠ [] := List.getLast?_isSome.mp (by rw [hL]; rfl)
            have := List.length_pos.mpr this
            omega
          · intro q hq
            rw [hfr q hq]
            simp [hq]

/-- Dealing three cards to each of two fresh seats from a 72-card pile leaves
both hands at 3 and the pile at 66. -/
theorem c6_deal (B : Game) (hp1 : B.players "p1" = some ⟨"p1", none, [], []⟩)
    (hp2 : B.players "p2" = some ⟨"p2", none, [], []⟩) (hd : B.deck.length = 72) :
    ∃ p1 p2,
      ((B.drawCards "p1" 3).drawCards "p2" 3).players "p1" = some p1 ∧
      ((B.drawCards "p1" 3).drawCards "p2" 3).players "p2" = some p2 ∧
      p1.hand.length = 3 ∧ p2.hand.length = 3 ∧
      ((B.drawCards "p1" 3).drawCards "p2" 3).deck.length = 66 := by
  obtain ⟨⟨q1, hq1, hlen1, hdom1⟩, hdk1, hfr1⟩ := drawCards_spec "p1" 3 B
    ⟨"p1", none, [], []⟩ hp1 (by omega)
  obtain ⟨⟨q2, hq2, hlen2, hdom2⟩, hdk2, hfr2⟩ := drawCards_spec "p2" 3
    (B.drawCards "p1" 3) ⟨"p2", none, [], []⟩
    ((hfr1 "p2" (by decide)).trans hp2) (by rw [hdk1]; omega)
  refine ⟨q1, q2, ?_, hq2, ?_, ?_, ?_⟩
  · rw [hfr2 "p1" (by decide)]
    exact hq1
  · simpa using hlen1
  · simpa using hlen2
  · rw [hdk2, hdk1]
    omega

theorem assignObjectives_playerIds (g : Game) (r2 r3 : Nat → Nat) :
    (g.assignObjectives r2 r3).playerIds = g.playerIds := rfl

/-- `startGame` unfolded once on a ready session: rebuild and shuffle the
deck, clear the table, assign objectives, deal three cards to each seat in
order, seat the first player and log the start. -/
theorem startGame_unfold (g : Game) (r1 r2 r3 : Nat → Nat)
    (h2 : 2 ≤ g.playerIds.length) (hst : g.started = false) :
    g.startGame r1 r2 r3 =
      (let g2 : Game := { g with deck := fisherYates r1 (buildDeck g.deckOptions g.deckMultiplier), banquetTop := emptyPiles, banquetBottom := emptyPiles, hiddenBanquet := [], revealHidden := false, pendingKill := none, objectiveResults := none, historySeq := 0, history := [] }
       let g3 : Game := g2.assignObjectives r2 r3
       let g4 : Game := g3.playerIds.foldl (fun acc id => acc.drawCards id 3) g3
       ({ g4 with currentTurn := (g4.playerIds.get? 0).getD "", started := true }).pushHistory { id := "", action := "start", actorId := none, actorName := none, destination := none, targetName := none, card := none, message := "Game started." }) := by
  rw [Game.startGame]
  rw [if_neg (by omega)]
  rw [if_neg (by simp [hst])]
  rfl

/-- C6 (amended): for the default two-player session with `deckMultiplier` 1,
after `startGame` each player holds exactly 3 cards, and the draw pile holds
66 cards — the generated deck is 6 colors × (4+2+2+2+2) = 72 cards minus the
6 dealt, not the 6 × (7+2+2+2+2) − 6 = 84 the spec computes. -/
theorem C6_default_start_sizes (r1 r2 r3 : Nat → Nat) :
    ∃ p1 p2, (gDefault.startGame r1 r2 r3).players "p1" = some p1 ∧
      (gDefault.startGame r1 r2 r3).players "p2" = some p2 ∧
      p1.hand.length = 3 ∧ p2.hand.length = 3 ∧
      (gDefault.startGame r1 r2 r3).deck.length = 66 := by
  rw [startGame_unfold gDefault r1 r2 r3 (by decide) (by decide)]
  simp only []
  have hDlen : (fisherYates r1 (buildDeck gDefault.deckOptions gDefault.deckMultiplier)).length = 72 := by
    rw [fisherYates_length]
    decide
  generalize hD : fisherYates r1 (buildDeck gDefault.deckOptions gDefault.deckMultiplier) = D at hDlen ⊢
  set G2 : Game := { gDefault with deck := D, banquetTop := emptyPiles, banquetBottom := emptyPiles, hiddenBanquet := [], revealHidden := false, pendingKill := none, objectiveResults := none, historySeq := 0, history := [] } with hG2
  set G3 : Game := G2.assignObjectives r2 r3 with hG3
  have hids : G3.playerIds = ["p1", "p2"] := by
    rw [hG3]
    exact (show gDefault.playerIds = ["p1", "p2"] from by decide)
  rw [hids]
  simp only [List.foldl_cons, List.foldl_nil]
  simp only [pushHistory_players, pushHistory_deck]
  have hp1 : G3.players "p1" = some ⟨"p1", none, [], []⟩ := by
    rw [hG3]
    exact (show gDefault.players "p1" = some ⟨"p1", none, [], []⟩ from by decide)
  have hp2 : G3.players "p2" = some ⟨"p2", none, [], []⟩ := by
    rw [hG3]
    exact (show gDefault.players "p2" = some ⟨"p2", none, [], []⟩ from by decide)
  have hd : G3.deck.length = 72 := by
    have hdk : G3.deck = D := by
      rw [hG3, hG2]
      rfl
    rw [hdk]
    exact hDlen
  exact c6_deal G3 hp1 hp2 hd

theorem C6_counterexample :
    (gDefault.startGame rand0 rand0 rand0).deck.length = 66 ∧
    ((gDefault.startGame rand0 rand0 rand0).players "p1").map (fun p => p.hand.length) =
      some 3 ∧
    ((gDefault.startGame rand0 rand0 rand0).players "p2").map (fun p => p.hand.length) =
      some 3 ∧
    6 * (7 + 2 + 2 + 2 + 2) - 6 = 84 ∧
    ¬ (gDefault.startGame rand0 rand0 rand0).deck.length = 84 := by
  refine ⟨by decide, by decide, by decide, by decide, by decide⟩

theorem recolorCard_type (f : Card → Card) (hf : SpyMask f) (c : Card) :
    (recolorCard f c).type = c.type := by
  rw [recolorCard]
  by_cases hc : c.type = .T ∧ c.isHidden = true
  · rw [if_pos hc]
    exact (hf c).2.1
  · rw [if_neg hc]

theorem recolorCard_isHidden (f : Card → Card) (hf : SpyMask f) (c : Card) :
    (recolorCard f c).isHidden = c.isHidden := by
  rw [recolorCard]
  by_cases hc : c.type = .T ∧ c.isHidden = true
  · rw [if_pos hc]
    exact (hf c).2.2.1
  · rw [if_neg hc]

theorem recolorCard_visible (f : Card → Card) (c : Card) (h : c.isHidden = false) :
    recolorCard f c = c := by
  rw [recolorCard, if_neg]
  intro hc
  rw [hc.2] at h
  cases h

theorem cardWeight_recolor (f : Card → Card) (hf : SpyMask f) (c : Card) :
    Game.cardWeight (recolorCard f c) = Game.cardWeight c := by
  rw [Game.cardWeight, Game.cardWeight, recolorCard_type f hf c]

theorem filter_visible_recolor (f : Card → Card) (hf : SpyMask f) (l : List Card) :
    (l.map (recolorCard f)).filter (fun c => c.isHidden = false) =
      l.filter (fun c => c.isHidden = false) := by
  induction l with
  | nil => rfl
  | cons c t ih =>
      simp only [List.map_cons, List.filter_cons]
      by_cases hh : c.isHidden = false
      · rw [recolorCard_visible f c hh, ih]
      · rw [show (decide ((recolorCard f c).isHidden = false)) =
            (decide (c.isHidden = false)) from by rw [recolorCard_isHidden f hf c]]
        rw [ih]
        simp [hh]

theorem sum_weight_recolor (f : Card → Card) (hf : SpyMask f) (l : List Card) :
    ((l.map (recolorCard f)).map Game.cardWeight).sum = (l.map Game.cardWeight).sum := by
  rw [List.map_map]
  exact congrArg List.sum (List.map_congr_left fun c _ => cardWeight_recolor f hf c)

theorem foldl_map_congr {β : Type} (r : α → α) (h : β → α → β)
    (hcong : ∀ b a, h b (r a) = h b a) :
    ∀ (l : List α) (b : β), List.foldl h b (l.map r) = List.foldl h b l := by
  intro l
  induction l with
  | nil => intro b; rfl
  | cons c t ih =>
      intro b
      simp only [List.map_cons, List.foldl_cons]
      rw [hcong b c]
      exact ih (h b c)

theorem filter_sign_map_length (m : HiddenEntry → HiddenEntry)
    (hm : ∀ e, (m e).sign = e.sign) (s : HiddenSign) (l : List HiddenEntry) :
    ((l.map m).filter (·.sign = s)).length = (l.filter (·.sign = s)).length := by
  induction l with
  | nil => rfl
  | cons e t ih =>
      simp only [List.map_cons, List.filter_cons]
      rw [show (decide ((m e).sign = s)) = (decide (e.sign = s)) from by rw [hm e]]
      by_cases he : e.sign = s
      · simp [he, ih]
      · simp [he, ih]

theorem recolor_banquetSummary (f : Card → Card) (hf : SpyMask f) (g : Game) :
    (recolorHiddenSpies f g).computeBanquetSummary = g.computeBanquetSummary := by
  rw [Game.computeBanquetSummary, Game.computeBanquetSummary]
  congr 1
  · refine congrArg ByColor.ofFun (funext fun color => ?_)
    simp only []
    have ht : (recolorHiddenSpies f g).banquetTop.get color =
        (g.banquetTop.get color).map (recolorCard f) := by
      rw [show (recolorHiddenSpies f g).banquetTop =
        ByColor.ofFun (fun c => (g.banquetTop.get c).map (recolorCard f)) from rfl]
      rw [ByColor.get_ofFun]
    have hb : (recolorHiddenSpies f g).banquetBottom.get color =
        (g.banquetBottom.get color).map (recolorCard f) := by
      rw [show (recolorHiddenSpies f g).banquetBottom =
        ByColor.ofFun (fun c => (g.banquetBottom.get c).map (recolorCard f)) from rfl]
      rw [ByColor.get_ofFun]
    rw [ht, hb, filter_visible_recolor f hf, filter_visible_recolor f hf,
      sum_weight_recolor f hf, sum_weight_recolor f hf]
  · rw [show (recolorHiddenSpies f g).hiddenBanquet =
      g.hiddenBanquet.map (fun e => { e with card := recolorCard f e.card }) from rfl]
    exact filter_sign_map_length (fun e => { e with card := recolorCard f e.card })
      (fun e => rfl) _ _
  · rw [show (recolorHiddenSpies f g).hiddenBanquet =
      g.hiddenBanquet.map (fun e => { e with card := recolorCard f e.card }) from rfl]
    exact filter_sign_map_length (fun e => { e with card := recolorCard f e.card })
      (fun e => rfl) _ _

theorem recolor_banquetDetails (f : Card → Card) (hf : SpyMask f) (g : Game) :
    (recolorHiddenSpies f g).computeBanquetDetails = g.computeBanquetDetails := by
  rw [Game.computeBanquetDetails, Game.computeBanquetDetails]
  congr 1
  · refine congrArg ByColor.ofFun (funext fun color => ?_)
    have ht : (recolorHiddenSpies f g).banquetTop.get color =
        (g.banquetTop.get color).map (recolorCard f) := by
      rw [show (recolorHiddenSpies f g).banquetTop =
        ByColor.ofFun (fun c => (g.banquetTop.get c).map (recolorCard f)) from rfl]
      rw [ByColor.get_ofFun]
    have hb : (recolorHiddenSpies f g).banquetBottom.get color =
        (g.banquetBottom.get color).map (recolorCard f) := by
      rw [show (recolorHiddenSpies f g).banquetBottom =
        ByColor.ofFun (fun c => (g.banquetBottom.get c).map (recolorCard f)) from rfl]
      rw [ByColor.get_ofFun]
    rw [ht, hb, filter_visible_recolor f hf, filter_visible_recolor f hf]
  · rw [show (recolorHiddenSpies f g).hiddenBanquet =
      g.hiddenBanquet.map (fun e => { e with card := recolorCard f e.card }) from rfl]
    exact filter_sign_map_length (fun e => { e with card := recolorCard f e.card })
      (fun e => rfl) _ _
  · rw [show (recolorHiddenSpies f g).hiddenBanquet =
      g.hiddenBanquet.map (fun e => { e with card := recolorCard f e.card }) from rfl]
    exact filter_sign_map_length (fun e => { e with card := recolorCard f e.card })
      (fun e => rfl) _ _

theorem recolor_domain_getD (f : Card → Card) (g : Game) (pid : String) :
    (((recolorHiddenSpies f g).players pid).map (fun x => x.domain)).getD [] =
      ((((g.players pid).map (fun x => x.domain))).getD []).map (recolorCard f) := by
  rw [show (recolorHiddenSpies f g).players = fun q => (g.players q).map
    (fun p => { p with domain := p.domain.map (recolorCard f) }) from rfl]
  simp only []
  cases g.players pid with
  | none => rfl
  | some p => rfl

theorem recolor_domainSummary (f : Card → Card) (hf : SpyMask f) (g : Game) :
    (recolorHiddenSpies f g).computeDomainSummary = g.computeDomainSummary := by
  rw [Game.computeDomainSummary, Game.computeDomainSummary]
  rw [show (recolorHiddenSpies f g).playerIds = g.playerIds from rfl]
  refine List.map_congr_left fun pid _ => ?_
  simp only []
  rw [recolor_domain_getD f g pid]
  rw [foldl_map_congr (recolorCard f) _ ?_ _ _]
  intro b c
  by_cases hc : c.type = .T ∧ c.isHidden = true
  · rw [recolorCard, if_pos hc]
    simp [(hf c).2.1, hc.1]
  · rw [recolorCard, if_neg hc]

theorem recolor_computeScores (f : Card → Card) (hf : SpyMask f) (g : Game)
    (hrev : g.revealHidden = false) (bs : BanquetSummary) :
    (recolorHiddenSpies f g).computeScores bs = g.computeScores bs := by
  rw [Game.computeScores, Game.computeScores]
  rw [show (recolorHiddenSpies f g).playerIds = g.playerIds from rfl]
  rw [show (recolorHiddenSpies f g).revealHidden = g.revealHidden from rfl]
  rw [show (recolorHiddenSpies f g).objectiveResults = g.objectiveResults from rfl]
  rw [hrev]
  refine List.map_congr_left fun pid _ => ?_
  simp only []
  rw [recolor_domain_getD f g pid]
  rw [foldl_map_congr (recolorCard f) _ ?_ _ _]
  intro b c
  by_cases hc : c.type = .T ∧ c.isHidden = true
  · rw [recolorCard, if_pos hc]
    simp [(hf c).2.1, hc.1]
  · rw [recolorCard, if_neg hc]

theorem mask_recolor (f : Card → Card) (hf : SpyMask f) (c : Card) :
    Game.maskDomainCard false (recolorCard f c) = Game.maskDomainCard false c := by
  rw [recolorCard]
  by_cases hc : c.type = .T ∧ c.isHidden = true
  · rw [if_pos hc]
    rw [Game.maskDomainCard, Game.maskDomainCard]
    rw [if_pos ⟨(hf c).2.1.trans hc.1, rfl⟩, if_pos ⟨hc.1, rfl⟩]
    have h1 := (hf c).1
    have h4 := (hf c).2.2.2
    rw [h1, h4]
  · rw [if_neg hc]

theorem maskDomainCard_reveal (c : Card) : Game.maskDomainCard true c = c := by
  rw [Game.maskDomainCard, if_neg]
  intro h
  exact Bool.noConfusion h.2

/-- C2 (amended): before the reveal, snapshots do not depend on the color and
image fields recorded in a hidden spy card — rewriting those two fields of
every hidden spy, while keeping its id, owner, type and hidden flag, changes
no viewer's snapshot — and after the reveal every player's domain appears in
every snapshot with its true cards. The claim as stated is false: the masked
card keeps its `id` and `ownerId`, and ids minted by `initializeDeck` encode
the true color and type. -/
theorem C2_hidden_spy_snapshots (f : Card → Card) (g g2 : Game) (v : String)
    (hf : SpyMask f) (hrev : g.revealHidden = false) (hrev2 : g2.revealHidden = true) :
    Game.getState (recolorHiddenSpies f g) v = Game.getState g v ∧
    (∀ pid p, pid ∈ g2.playerIds → g2.players pid = some p →
      (pid, ({ id := pid, name := p.name, hand := if pid = v then p.hand else p.hand.map Game.maskHandCard, domain := p.domain } : SnapPlayer)) ∈ (Game.getState g2 v).players) := by
  constructor
  · rw [Game.getState, Game.getState]
    simp only []
    rw [show (recolorHiddenSpies f g).currentTurn = g.currentTurn from rfl,
        show (recolorHiddenSpies f g).moves = g.moves from rfl,
        show (recolorHiddenSpies f g).playerIds = g.playerIds from rfl,
        show (recolorHiddenSpies f g).revealHidden = g.revealHidden from rfl,
        show (recolorHiddenSpies f g).started = g.started from rfl,
        show (recolorHiddenSpies f g).maxPlayers = g.maxPlayers from rfl,
        show (recolorHiddenSpies f g).deck = g.deck from rfl,
        show (recolorHiddenSpies f g).objectiveResults = g.objectiveResults from rfl,
        show (recolorHiddenSpies f g).pendingKill = g.pendingKill from rfl,
        show (recolorHiddenSpies f g).history = g.history from rfl,
        show (recolorHiddenSpies f g).objectives = g.objectives from rfl]
    rw [recolor_banquetSummary f hf g, recolor_banquetDetails f hf g,
        recolor_domainSummary f hf g, recolor_computeScores f hf g hrev]
    rw [hrev]
    repeat rw [if_neg Bool.false_ne_true]
    congr 1
    refine List.map_congr_left fun pid _ => ?_
    rw [show (recolorHiddenSpies f g).players = fun q => (g.players q).map
      (fun p => { p with domain := p.domain.map (recolorCard f) }) from rfl]
    simp only []
    cases hps : g.players pid with
    | none => rfl
    | some p =>
        have key : (p.domain.map (recolorCard f)).map (Game.maskDomainCard false) =
            p.domain.map (Game.maskDomainCard false) := by
          rw [List.map_map]
          exact List.map_congr_left fun c _ => mask_recolor f hf c
        show (pid, ({ id := pid, name := p.name, hand := (if pid = v then p.hand else p.hand.map Game.maskHandCard), domain := (p.domain.map (recolorCard f)).map (Game.maskDomainCard false) } : SnapPlayer)) = (pid, ({ id := pid, name := p.name, hand := (if pid = v then p.hand else p.hand.map Game.maskHandCard), domain := p.domain.map (Game.maskDomainCard false) } : SnapPlayer))
        rw [key]
  · intro pid p hmem hp
    rw [Game.getState]
    simp only []
    refine List.mem_map.mpr ⟨pid, hmem, ?_⟩
    rw [hp, hrev2]
    show (pid, ({ id := pid, name := p.name, hand := (if pid = v then p.hand else p.hand.map Game.maskHandCard), domain := p.domain.map (Game.maskDomainCard true) } : SnapPlayer)) = _
    rw [show p.domain.map (Game.maskDomainCard true) = p.domain from by
      rw [show p.domain.map (Game.maskDomainCard true) = p.domain.map (fun c => c) from
        List.map_congr_left fun c _ => maskDomainCard_reveal c]
      exact List.map_id' p.domain]

/-- A spy-field rewrite: change the color and image, keep everything else. -/
def fBlue : Card → Card := fun c => { c with color := .B, image := "BT.png" }

def tStateRevealed : Game := { tState spyR with revealHidden := true }

theorem C2_witness :
    SpyMask fBlue ∧ (tState spyR).revealHidden = false ∧
    tStateRevealed.revealHidden = true ∧
    (Game.getState (recolorHiddenSpies fBlue (tState spyR)) "p1" =
      Game.getState (tState spyR) "p1" ∧
    (∀ pid p, pid ∈ tStateRevealed.playerIds → tStateRevealed.players pid = some p →
      (pid, ({ id := pid, name := p.name, hand := if pid = "p1" then p.hand else p.hand.map Game.maskHandCard, domain := p.domain } : SnapPlayer)) ∈
        (Game.getState tStateRevealed "p1").players)) :=
  ⟨fun c => ⟨rfl, rfl, rfl, rfl⟩, rfl, rfl,
    C2_hidden_spy_snapshots fBlue (tState spyR) tStateRevealed "p1"
      (fun c => ⟨rfl, rfl, rfl, rfl⟩) rfl rfl⟩

theorem C2_counterexample :
    Game.getState (tState spyR) "p1" ≠ Game.getState (tState spyB) "p1" ∧
    (∃ e ∈ (Game.getState (tState spyR) "p1").players, ∃ c ∈ e.2.domain,
      c.id = "R-T-0" ∧ c.type = .N ∧ c.color = .W ∧ c.isHidden = true ∧
      c.ownerId = "p2") := by
  refine ⟨by decide, by decide⟩

theorem Game.unhideCard_color (c : Card) : (Game.unhideCard c).color = c.color := rfl

theorem revealFold_pile_top (col : CardColor) :
    ∀ (l : List HiddenEntry) (acc : Game),
    (Game.revealMoveFold l acc).banquetTop.get col =
      acc.banquetTop.get col ++
        ((l.filter (fun e => e.sign = .top ∧ e.card.color = col)).map
          (fun e => Game.unhideCard e.card)) := by
  intro l
  induction l with
  | nil =>
      intro acc
      simp [Game.revealMoveFold]
  | cons e t ih =>
      intro acc
      have hstep : Game.revealMoveFold (e :: t) acc = Game.revealMoveFold t
          (match e.sign with
           | .top => { acc with banquetTop := acc.banquetTop.modify (Game.unhideCard e.card).color (· ++ [Game.unhideCard e.card]) }
           | .bottom => { acc with banquetBottom := acc.banquetBottom.modify (Game.unhideCard e.card).color (· ++ [Game.unhideCard e.card]) }) := rfl
      rw [hstep, List.filter_cons]
      cases hs : e.sign with
      | top =>
          simp only []
          rw [ih]
          rw [ByColor.get_modify]
          rw [show (Game.unhideCard e.card).color = e.card.color from rfl]
          by_cases hc : e.card.color = col
          · rw [if_pos hc.symm, hc]
            simp [hc]
          · rw [if_neg (fun h => hc h.symm)]
            simp [hc]
      | bottom =>
          simp only []
          rw [ih]
          rw [show ({ acc with banquetBottom := acc.banquetBottom.modify (Game.unhideCard e.card).color (· ++ [Game.unhideCard e.card]) } : Game).banquetTop = acc.banquetTop from rfl]
          simp

theorem revealFold_pile_bottom (col : CardColor) :
    ∀ (l : List HiddenEntry) (acc : Game),
    (Game.revealMoveFold l acc).banquetBottom.get col =
      acc.banquetBottom.get col ++
        ((l.filter (fun e => e.sign = .bottom ∧ e.card.color = col)).map
          (fun e => Game.unhideCard e.card)) := by
  intro l
  induction l with
  | nil =>
      intro acc
      simp [Game.revealMoveFold]
  | cons e t ih =>
      intro acc
      have hstep : Game.revealMoveFold (e :: t) acc = Game.revealMoveFold t
          (match e.sign with
           | .top => { acc with banquetTop := acc.banquetTop.modify (Game.unhideCard e.card).color (· ++ [Game.unhideCard e.card]) }
           | .bottom => { acc with banquetBottom := acc.banquetBottom.modify (Game.unhideCard e.card).color (· ++ [Game.unhideCard e.card]) }) := rfl
      rw [hstep, List.filter_cons]
      cases hs : e.sign with
      | bottom =>
          simp only []
          rw [ih]
          rw [ByColor.get_modify]
          rw [show (Game.unhideCard e.card).color = e.card.color from rfl]
          by_cases hc : e.card.color = col
          · rw [if_pos hc.symm, hc]
            simp [hc]
          · rw [if_neg (fun h => hc h.symm)]
            simp [hc]
      | top =>
          simp only []
          rw [ih]
          rw [show ({ acc with banquetTop := acc.banquetTop.modify (Game.unhideCard e.card).color (· ++ [Game.unhideCard e.card]) } : Game).banquetBottom = acc.banquetBottom from rfl]
          simp

theorem objFold_frame (g4 : Game) (pid : String) :
    ∀ (t : List String) (acc : String → Option ObjectiveResult), pid ∉ t →
      (t.foldl
        (fun (acc : String → Option ObjectiveResult) (q : String) =>
          match g4.objectives q with
          | none => acc
          | some obj => fun q2 =>
              if q2 = q then
                some ⟨g4.evaluateObjectiveAtEnd q obj.graceful,
                      g4.evaluateObjectiveAtEnd q obj.disgraceful⟩
              else acc q2)
        acc) pid = acc pid := by
  intro t
  induction t with
  | nil =>
      intro acc _
      rfl
  | cons q tq ih =>
      intro acc h
      rw [List.foldl_cons]
      have hq : pid ≠ q := fun he => h (he ▸ List.mem_cons_self q tq)
      rw [ih _ (fun hm => h (List.mem_cons_of_mem q hm))]
      cases g4.objectives q with
      | none => rfl
      | some obj => simp [hq]

theorem objectiveResultsFold_lookup (g4 : Game) (hnd : g4.playerIds.Nodup)
    (pid : String) (hmem : pid ∈ g4.playerIds) (obj : ObjectiveAssignment)
    (hobj : g4.objectives pid = some obj) :
    Game.objectiveResultsFold g4 pid =
      some ⟨g4.evaluateObjectiveAtEnd pid obj.graceful,
            g4.evaluateObjectiveAtEnd pid obj.disgraceful⟩ := by
  rw [Game.objectiveResultsFold]
  have main : ∀ (l : List String) (acc : String → Option ObjectiveResult),
      l.Nodup → pid ∈ l →
      (l.foldl
        (fun (acc : String → Option ObjectiveResult) (q : String) =>
          match g4.objectives q with
          | none => acc
          | some obj => fun q2 =>
              if q2 = q then
                some ⟨g4.evaluateObjectiveAtEnd q obj.graceful,
                      g4.evaluateObjectiveAtEnd q obj.disgraceful⟩
              else acc q2)
        acc) pid =
      some ⟨g4.evaluateObjectiveAtEnd pid obj.graceful,
            g4.evaluateObjectiveAtEnd pid obj.disgraceful⟩ := by
    intro l
    induction l with
    | nil =>
        intro acc _ h
        cases h
    | cons q t ih =>
        intro acc hnd2 hm
        rw [List.foldl_cons]
        rcases List.mem_cons.mp hm with rfl | hm2
        · have hnin : pid ∉ t := (List.nodup_cons.mp hnd2).1
          rw [objFold_frame g4 pid t _ hnin]
          rw [hobj]
          simp
        · exact ih _ (List.nodup_cons.mp hnd2).2 hm2
  exact main g4.playerIds (fun _ => none) hnd hmem

theorem evaluateObjectiveAtEnd_congr (g1 g2 : Game) (hp : g1.players = g2.players)
    (ht : g1.banquetTop = g2.banquetTop) (hb : g1.banquetBottom = g2.banquetBottom)
    (hi : g1.playerIds = g2.playerIds) (pid : String) (obj : Objective) :
    g1.evaluateObjectiveAtEnd pid obj = g2.evaluateObjectiveAtEnd pid obj := by
  rw [Game.evaluateObjectiveAtEnd, Game.evaluateObjectiveAtEnd, hp, ht, hb, hi]

theorem checkGameOver_fires (g : Game) (hst : g.started = true) (hdk : g.deck = [])
    (hhands : ∀ pid p, g.players pid = some p → p.hand = []) :
    g.checkGameOver =
      (let g1 : Game := { g with revealHidden := true, pendingKill := none }
       let g2 : Game := { g1 with players := fun q => if q ∈ g1.playerIds then (g1.players q).map (fun (p : PlayerState) => { p with domain := p.domain.map Game.restoreSpy }) else g1.players q, banquetTop := ByColor.ofFun (fun c => (g1.banquetTop.get c).map Game.restoreSpy), banquetBottom := ByColor.ofFun (fun c => (g1.banquetBottom.get c).map Game.restoreSpy) }
       let g3 : Game := Game.revealMoveFold g2.hiddenBanquet g2
       let g4 : Game := { g3 with hiddenBanquet := [] }
       { g4 with objectiveResults := some (Game.objectiveResultsFold g4) }) := by
  rw [Game.checkGameOver]
  rw [if_neg (show ¬(g.started = false) from by rw [hst]; simp)]
  rw [if_neg (show ¬(g.deck.length > 0) from by rw [hdk]; simp)]
  rw [if_neg ?hany]
  case hany =>
    intro h
    obtain ⟨pid, hmem, hp⟩ := List.any_eq_true.mp h
    cases hps : g.players pid with
    | none =>
        rw [hps] at hp
        simp at hp
    | some p =>
        rw [hps] at hp
        simp [hhands pid p hps] at hp

/-- C7: when a turn ends with the game started, the draw pile empty and every
hand empty, `checkGameOver` fires: the reveal flag is set, any pending kill is
cleared, every domain spy is restored (hidden flag unset, true image), every
hidden-banquet entry moves to its true color's pile per its recorded sign
leaving the hidden list empty, no hidden spy remains in any pile, and every
assigned player's two objectives are evaluated against the final state with
boolean results stored; if any of the three conditions fails, the state is
returned untouched. -/
theorem C7_game_over_reveal (g : Game) (hnd : g.playerIds.Nodup)
    (hst : g.started = true) (hdk : g.deck = [])
    (hhands : ∀ pid p, g.players pid = some p → p.hand = []) :
    g.checkGameOver.revealHidden = true ∧
    g.checkGameOver.pendingKill = none ∧
    g.checkGameOver.hiddenBanquet = [] ∧
    (∀ pid, pid ∈ g.playerIds → g.checkGameOver.players pid =
      (g.players pid).map (fun p => { p with domain := p.domain.map Game.restoreSpy })) ∧
    (∀ col, g.checkGameOver.banquetTop.get col =
      (g.banquetTop.get col).map Game.restoreSpy ++
        ((g.hiddenBanquet.filter (fun e => e.sign = .top ∧ e.card.color = col)).map
          (fun e => Game.unhideCard e.card))) ∧
    (∀ col, g.checkGameOver.banquetBottom.get col =
      (g.banquetBottom.get col).map Game.restoreSpy ++
        ((g.hiddenBanquet.filter (fun e => e.sign = .bottom ∧ e.card.color = col)).map
          (fun e => Game.unhideCard e.card))) ∧
    (∀ col c, (c ∈ g.checkGameOver.banquetTop.get col ∨
        c ∈ g.checkGameOver.banquetBottom.get col) → c.isHidden = true → c.type ≠ .T) ∧
    (∃ res, g.checkGameOver.objectiveResults = some res ∧
      ∀ pid obj, pid ∈ g.playerIds → g.objectives pid = some obj →
        res pid = some ⟨g.checkGameOver.evaluateObjectiveAtEnd pid obj.graceful,
                        g.checkGameOver.evaluateObjectiveAtEnd pid obj.disgraceful⟩) ∧
    (∀ g' : Game, (g'.started = false ∨ g'.deck ≠ [] ∨
        (∃ pid p, pid ∈ g'.playerIds ∧ g'.players pid = some p ∧ p.hand ≠ [])) →
      g'.checkGameOver = g') := by
  rw [checkGameOver_fires g hst hdk hhands]
  simp only []
  set G1 : Game := { g with revealHidden := true, pendingKill := none } with hG1
  set G2 : Game := { G1 with players := fun q => if q ∈ G1.playerIds then (G1.players q).map (fun (p : PlayerState) => { p with domain := p.domain.map Game.restoreSpy }) else G1.players q, banquetTop := ByColor.ofFun (fun c => (G1.banquetTop.get c).map Game.restoreSpy), banquetBottom := ByColor.ofFun (fun c => (G1.banquetBottom.get c).map Game.restoreSpy) } with hG2
  set G3 : Game := Game.revealMoveFold G2.hiddenBanquet G2 with hG3
  set G4 : Game := { G3 with hiddenBanquet := [] } with hG4
  have htopP : ∀ col, ({ G4 with objectiveResults := some (Game.objectiveResultsFold G4) } : Game).banquetTop.get col =
      (g.banquetTop.get col).map Game.restoreSpy ++
        ((g.hiddenBanquet.filter (fun e => e.sign = .top ∧ e.card.color = col)).map
          (fun e => Game.unhideCard e.card)) := by
    intro col
    rw [show ({ G4 with objectiveResults := some (Game.objectiveResultsFold G4) } : Game).banquetTop = G3.banquetTop from rfl]
    rw [hG3]
    rw [revealFold_pile_top col]
    rw [show G2.hiddenBanquet = g.hiddenBanquet from rfl]
    rw [show G2.banquetTop = ByColor.ofFun (fun c => (G1.banquetTop.get c).map Game.restoreSpy) from rfl]
    rw [ByColor.get_ofFun]
  have hbotP : ∀ col, ({ G4 with objectiveResults := some (Game.objectiveResultsFold G4) } : Game).banquetBottom.get col =
      (g.banquetBottom.get col).map Game.restoreSpy ++
        ((g.hiddenBanquet.filter (fun e => e.sign = .bottom ∧ e.card.color = col)).map
          (fun e => Game.unhideCard e.card)) := by
    intro col
    rw [show ({ G4 with objectiveResults := some (Game.objectiveResultsFold G4) } : Game).banquetBottom = G3.banquetBottom from rfl]
    rw [hG3]
    rw [revealFold_pile_bottom col]
    rw [show G2.hiddenBanquet = g.hiddenBanquet from rfl]
    rw [show G2.banquetBottom = ByColor.ofFun (fun c => (G1.banquetBottom.get c).map Game.restoreSpy) from rfl]
    rw [ByColor.get_ofFun]
  refine ⟨?_, ?_, ?_, ?_, htopP, hbotP, ?_, ?_, ?_⟩
  · show G3.revealHidden = true
    rw [hG3, Game.revealMoveFold_revealHidden]
  · show G3.pendingKill = none
    rw [hG3, Game.revealMoveFold_pendingKill]
  · trivial
  · intro pid hmem
    show G3.players pid = _
    rw [hG3, Game.revealMoveFold_players]
    show (if pid ∈ G1.playerIds then (G1.players pid).map (fun (p : PlayerState) => { p with domain := p.domain.map Game.restoreSpy }) else G1.players pid) = _
    rw [if_pos (show pid ∈ G1.playerIds from hmem)]
  · intro col c hmemc hhid
    cases hmemc with
    | inl h =>
        rw [htopP col] at h
        cases List.mem_append.mp h with
        | inl h2 =>
            obtain ⟨x, hx, hrx⟩ := List.mem_map.mp h2
            by_cases hxt : x.type = .T
            · exfalso
              rw [← hrx] at hhid
              rw [Game.restoreSpy, if_pos hxt] at hhid
              exact Bool.noConfusion hhid
            · intro hct
              rw [← hrx] at hct
              rw [Game.restoreSpy, if_neg hxt] at hct
              exact hxt hct
        | inr h2 =>
            obtain ⟨x, hx, hrx⟩ := List.mem_map.mp h2
            exfalso
            rw [← hrx] at hhid
            exact Bool.noConfusion hhid
    | inr h =>
        rw [hbotP col] at h
        cases List.mem_append.mp h with
        | inl h2 =>
            obtain ⟨x, hx, hrx⟩ := List.mem_map.mp h2
            by_cases hxt : x.type = .T
            · exfalso
              rw [← hrx] at hhid
              rw [Game.restoreSpy, if_pos hxt] at hhid
              exact Bool.noConfusion hhid
            · intro hct
              rw [← hrx] at hct
              rw [Game.restoreSpy, if_neg hxt] at hct
              exact hxt hct
        | inr h2 =>
            obtain ⟨x, hx, hrx⟩ := List.mem_map.mp h2
            exfalso
            rw [← hrx] at hhid
            exact Bool.noConfusion hhid
  · refine ⟨Game.objectiveResultsFold G4, rfl, ?_⟩
    intro pid obj hmem hobj
    have hids4 : G4.playerIds = g.playerIds := by
      rw [show G4.playerIds = G3.playerIds from rfl, hG3, Game.revealMoveFold_playerIds]
    have hobj4 : G4.objectives pid = some obj := by
      rw [show G4.objectives = G3.objectives from rfl, hG3, Game.revealMoveFold_objectives]
      exact hobj
    have hlook := objectiveResultsFold_lookup G4 (by rw [hids4]; exact hnd) pid
      (by rw [hids4]; exact hmem) obj hobj4
    rw [hlook]
    have he1 : G4.evaluateObjectiveAtEnd pid obj.graceful =
        ({ G4 with objectiveResults := some (Game.objectiveResultsFold G4) } : Game).evaluateObjectiveAtEnd pid obj.graceful :=
      evaluateObjectiveAtEnd_congr _ _ rfl rfl rfl rfl pid obj.graceful
    have he2 : G4.evaluateObjectiveAtEnd pid obj.disgraceful =
        ({ G4 with objectiveResults := some (Game.objectiveResultsFold G4) } : Game).evaluateObjectiveAtEnd pid obj.disgraceful :=
      evaluateObjectiveAtEnd_congr _ _ rfl rfl rfl rfl pid obj.disgraceful
    rw [he1, he2]
  · intro g2 h
    rcases h with h1 | h2 | h3
    · rw [Game.checkGameOver, if_pos h1]
    · rw [Game.checkGameOver]
      by_cases hstt : g2.started = false
      · rw [if_pos hstt]
      · rw [if_neg hstt]
        rw [if_pos (show g2.deck.length > 0 from by
          cases hd : g2.deck with
          | nil => exact absurd hd h2
          | cons a t => simp [hd])]
    · obtain ⟨pid, p, hmem, hp, hh⟩ := h3
      rw [Game.checkGameOver]
      by_cases hstt : g2.started = false
      · rw [if_pos hstt]
      · rw [if_neg hstt]
        by_cases hd2 : g2.deck.length > 0
        · rw [if_pos hd2]
        · rw [if_neg hd2]
          rw [if_pos (List.any_eq_true.mpr ⟨pid, hmem, by
            rw [hp]
            simp [List.length_pos.mpr hh]⟩)]

/-- A finished two-player session: empty deck and hands, a hidden spy in the
second player's domain and one hidden banquet card. -/
def tEndState : Game :=
  { tState spyR with
    players := fun q => if q = "p1" then some ⟨"p1", none, [], []⟩ else if q = "p2" then some ⟨"p2", none, [], [spyR]⟩ else none
    hiddenBanquet := [⟨spyB, .top⟩] }

theorem tEndState_hands : ∀ pid p, tEndState.players pid = some p → p.hand = [] := by
  intro pid p hp
  by_cases h1 : pid = "p1"
  · subst h1
    injection (show some (⟨"p1", none, [], []⟩ : PlayerState) = some p from hp) with h2
    rw [← h2]
  · by_cases h2 : pid = "p2"
    · subst h2
      injection (show some (⟨"p2", none, [], [spyR]⟩ : PlayerState) = some p from hp) with h3
      rw [← h3]
    · rw [show tEndState.players pid = (if pid = "p1" then some (⟨"p1", none, [], []⟩ : PlayerState) else if pid = "p2" then some ⟨"p2", none, [], [spyR]⟩ else none) from rfl, if_neg h1, if_neg h2] at hp
      exact Option.noConfusion hp

theorem C7_witness :
    (tEndState.playerIds.Nodup ∧ tEndState.started = true ∧ tEndState.deck = [] ∧
      (∀ pid p, tEndState.players pid = some p → p.hand = [])) ∧
    (tEndState.checkGameOver.revealHidden = true ∧
    tEndState.checkGameOver.pendingKill = none ∧
    tEndState.checkGameOver.hiddenBanquet = [] ∧
    (∀ pid, pid ∈ tEndState.playerIds → tEndState.checkGameOver.players pid =
      (tEndState.players pid).map
        (fun p => { p with domain := p.domain.map Game.restoreSpy })) ∧
    (∀ col, tEndState.checkGameOver.banquetTop.get col =
      (tEndState.banquetTop.get col).map Game.restoreSpy ++
        ((tEndState.hiddenBanquet.filter (fun e => e.sign = .top ∧ e.card.color = col)).map
          (fun e => Game.unhideCard e.card))) ∧
    (∀ col, tEndState.checkGameOver.banquetBottom.get col =
      (tEndState.banquetBottom.get col).map Game.restoreSpy ++
        ((tEndState.hiddenBanquet.filter (fun e => e.sign = .bottom ∧ e.card.color = col)).map
          (fun e => Game.unhideCard e.card))) ∧
    (∀ col c, (c ∈ tEndState.checkGameOver.banquetTop.get col ∨
        c ∈ tEndState.checkGameOver.banquetBottom.get col) → c.isHidden = true → c.type ≠ .T) ∧
    (∃ res, tEndState.checkGameOver.objectiveResults = some res ∧
      ∀ pid obj, pid ∈ tEndState.playerIds → tEndState.objectives pid = some obj →
        res pid = some ⟨tEndState.checkGameOver.evaluateObjectiveAtEnd pid obj.graceful,
                        tEndState.checkGameOver.evaluateObjectiveAtEnd pid obj.disgraceful⟩) ∧
    (∀ g' : Game, (g'.started = false ∨ g'.deck ≠ [] ∨
        (∃ pid p, pid ∈ g'.playerIds ∧ g'.players pid = some p ∧ p.hand ≠ [])) →
      g'.checkGameOver = g')) :=
  ⟨⟨by decide, rfl, rfl, tEndState_hands⟩,
    C7_game_over_reveal tEndState (by decide) rfl rfl tEndState_hands⟩

theorem deckCounts_fold (g : Game) (col : CardColor) :
    ∀ (l : List Card) (acc : ByColor Nat),
    ((l.foldl (fun (acc : ByColor Nat) (card : Card) =>
        if card.type = .T ∧ g.revealHidden = false then acc
        else acc.modify card.color (· + (if card.type = .X2 then 2 else 1)))
      acc).get col) =
    acc.get col + ((l.filter (fun c => c.color = col ∧
        ¬(c.type = .T ∧ g.revealHidden = false))).map
      (fun c => if c.type = .X2 then 2 else 1)).sum := by
  intro l
  induction l with
  | nil =>
      intro acc
      simp
  | cons c t ih =>
      intro acc
      rw [List.foldl_cons, List.filter_cons]
      by_cases hc1 : c.type = .T ∧ g.revealHidden = false
      · rw [if_pos hc1]
        rw [show (decide (c.color = col ∧ ¬(c.type = .T ∧ g.revealHidden = false))) =
          false from by simp [hc1]]
        simp only [Bool.false_eq_true, if_false]
        exact ih acc
      · rw [if_neg hc1]
        rw [ih]
        rw [ByColor.get_modify]
        by_cases hc2 : c.color = col
        · rw [if_pos hc2.symm]
          rw [show (decide (c.color = col ∧ ¬(c.type = .T ∧ g.revealHidden = false))) =
            true from by simp [hc2, hc1]]
          simp only [if_true, List.map_cons, List.sum_cons]
          rw [hc2]
          omega
        · rw [if_neg (fun h => hc2 h.symm)]
          rw [show (decide (c.color = col ∧ ¬(c.type = .T ∧ g.revealHidden = false))) =
            false from by simp [hc2]]
          simp only [Bool.false_eq_true, if_false]

theorem natWeight_sum_cast (l : List Card) :
    (((l.map (fun c => if c.type = .X2 then 2 else 1)).sum : Nat) : Int) =
      (l.map Game.cardWeight).sum := by
  induction l with
  | nil => rfl
  | cons c t ih =>
      simp only [List.map_cons, List.sum_cons]
      rw [Nat.cast_add, ih, Game.cardWeight]
      by_cases hx : c.type = .X2
      · rw [if_pos hx, if_pos hx]
        simp
      · rw [if_neg hx, if_neg hx]
        simp

theorem summary_value (g : Game) (col : CardColor) :
    (if g.revealHidden then (g.computeBanquetSummary.byColor.get col).valueRevealed
      else (g.computeBanquetSummary.byColor.get col).valueVisible) =
    specBanquetValue g col := by
  rw [Game.computeBanquetSummary]
  simp only [ByColor.get_ofFun]
  rw [specBanquetValue]

theorem holdings_count (g : Game) (pid : String) (col : CardColor) :
    ((((((g.players pid).map (fun x => x.domain))).getD []).foldl
        (fun (acc : ByColor Nat) (card : Card) =>
          if card.type = .T ∧ g.revealHidden = false then acc
          else acc.modify card.color (· + (if card.type = .X2 then 2 else 1)))
        (ByColor.const 0)).get col : Int) = specHoldings g pid col := by
  rw [deckCounts_fold g col]
  rw [ByColor.get_const]
  rw [Nat.zero_add]
  rw [natWeight_sum_cast]
  rw [specHoldings]

/-- C8: the per-player score entry computed by `computeScores` satisfies the
spec formulas — each color contributes the banquet value of that color
(revealed when the reveal flag is set, else visible) times the player's
holdings of that color (spies excluded before the reveal), and the total is
the sum of the per-color products plus the post-reveal objective bonus. -/
theorem C8_per_color_scores (g : Game) (pid : String) (hmem : pid ∈ g.playerIds) :
    ∃ entry : ScoreEntry, (pid, entry) ∈ g.computeScores g.computeBanquetSummary ∧
      (∀ col, entry.byColor.get col = specBanquetValue g col * specHoldings g pid col) ∧
      entry.total =
        (COLORS.map (fun col => specBanquetValue g col * specHoldings g pid col)).sum +
          specObjectiveBonus g pid := by
  rw [Game.computeScores]
  refine ⟨_, List.mem_map.mpr ⟨pid, hmem, rfl⟩, ?_, ?_⟩
  · intro col
    show (ByColor.ofFun (fun color =>
        (if g.revealHidden then (g.computeBanquetSummary.byColor.get color).valueRevealed
          else (g.computeBanquetSummary.byColor.get color).valueVisible) *
        ((((((g.players pid).map (fun x => x.domain))).getD []).foldl
            (fun (acc : ByColor Nat) (card : Card) =>
              if card.type = .T ∧ g.revealHidden = false then acc
              else acc.modify card.color (· + (if card.type = .X2 then 2 else 1)))
            (ByColor.const 0)).get color : Int))).get col =
      specBanquetValue g col * specHoldings g pid col
    rw [ByColor.get_ofFun]
    rw [summary_value g col]
    rw [holdings_count g pid col]
  · show COLORS.foldl (fun t c => t + (ByColor.ofFun (fun color =>
        (if g.revealHidden then (g.computeBanquetSummary.byColor.get color).valueRevealed
          else (g.computeBanquetSummary.byColor.get color).valueVisible) *
        ((((((g.players pid).map (fun x => x.domain))).getD []).foldl
            (fun (acc : ByColor Nat) (card : Card) =>
              if card.type = .T ∧ g.revealHidden = false then acc
              else acc.modify card.color (· + (if card.type = .X2 then 2 else 1)))
            (ByColor.const 0)).get color : Int))).get c) 0 +
        specObjectiveBonus g pid =
      (COLORS.map (fun col => specBanquetValue g col * specHoldings g pid col)).sum +
        specObjectiveBonus g pid
    rw [foldl_add_map_sum]
    have hmap : COLORS.map (fun c => (ByColor.ofFun (fun color =>
        (if g.revealHidden then (g.computeBanquetSummary.byColor.get color).valueRevealed
          else (g.computeBanquetSummary.byColor.get color).valueVisible) *
        ((((((g.players pid).map (fun x => x.domain))).getD []).foldl
            (fun (acc : ByColor Nat) (card : Card) =>
              if card.type = .T ∧ g.revealHidden = false then acc
              else acc.modify card.color (· + (if card.type = .X2 then 2 else 1)))
            (ByColor.const 0)).get color : Int))).get c) =
        COLORS.map (fun col => specBanquetValue g col * specHoldings g pid col) := by
      refine List.map_congr_left fun col _ => ?_
      rw [ByColor.get_ofFun]
      rw [summary_value g col]
      rw [holdings_count g pid col]
    rw [hmap]
    rw [zero_add]

theorem C8_witness :
    "p1" ∈ (tState spyR).playerIds ∧
    (∃ entry : ScoreEntry,
      ("p1", entry) ∈ (tState spyR).computeScores (tState spyR).computeBanquetSummary ∧
      (∀ col, entry.byColor.get col =
        specBanquetValue (tState spyR) col * specHoldings (tState spyR) "p1" col) ∧
      entry.total = (COLORS.map (fun col =>
          specBanquetValue (tState spyR) col * specHoldings (tState spyR) "p1" col)).sum +
        specObjectiveBonus (tState spyR) "p1") :=
  ⟨by decide, C8_per_color_scores (tState spyR) "p1" (by decide)⟩
